import Mathlib

/-!
Verification of the whatsapp-automation bulk dispatch engine.

Shallow embedding of `src/utils.ts`, `src/validation.ts`, `src/types.ts` and
`src/bulk-sender.ts`.  Strings are modelled as `List Char`; JS numbers that
hold millisecond delays are modelled as `Int` (with the random source as a
rational in `[0,1)`); the WhatsApp transport is modelled as a deterministic
oracle indexed by the recipient position, and every externally visible
action of the engine (registration check, message send, timed wait) is
recorded in an event trace.
-/

set_option maxHeartbeats 1000000

namespace WA

/-! ### Definitions -/

/-- Convert a Lean string literal to the `List Char` representation used by
the embedding. -/
def str (s : String) : List Char := s.data

/-- The whitespace characters stripped by the JS `\s` class / `trim()` on the
ASCII inputs this code handles. -/
def isJsSpace (c : Char) : Bool :=
  c = ' ' || c = '\t' || c = '\n' || c = '\r' || c = '\x0b' || c = '\x0c'

/-- JS `String.prototype.trim`: remove leading and trailing whitespace. -/
def trimJs (s : List Char) : List Char :=
  ((s.dropWhile isJsSpace).reverse.dropWhile isJsSpace).reverse

/-- JS `String.prototype.split(sep)` for a single-character separator: runs of
the separator produce empty fragments, and splitting the empty string yields
`[[]]`. -/
def splitOnChar (sep : Char) : List Char → List (List Char)
  | [] => [[]]
  | c :: rest =>
    match splitOnChar sep rest with
    | [] => [[c]]
    | t :: ts => if c = sep then [] :: t :: ts else (c :: t) :: ts

/-- Boolean test that `p` is a prefix of `s`. -/
def startsWith : List Char → List Char → Bool
  | [], _ => true
  | _ :: _, [] => false
  | p :: ps, c :: cs => p = c && startsWith ps cs

/-- The backquote character (U+0060), named via its code point. -/
def backquote : Char := Char.ofNat 96

/-- The single-quote character (U+0027), named via its code point. -/
def singleQuote : Char := Char.ofNat 39

/-- ECMAScript `GetSubstitution` for a string replacement value and a regex
with no capture groups: `$$` yields `$`, `$&` the matched substring,
dollar-backquote the part of the original string before the match, and
dollar-quote the part after it; every other `$` sequence is literal (a
`$n` group reference is literal because these regexes capture nothing). -/
def getSub (matched bef aft : List Char) : List Char → List Char
  | [] => []
  | c :: rest =>
    if c = '$' then
      match rest with
      | [] => ['$']
      | b :: r =>
        if b = '$' then '$' :: getSub matched bef aft r
        else if b = '&' then matched ++ getSub matched bef aft r
        else if b = backquote then bef ++ getSub matched bef aft r
        else if b = singleQuote then aft ++ getSub matched bef aft r
        else '$' :: getSub matched bef aft (b :: r)
    else c :: getSub matched bef aft rest

/-- Worker for `replaceAll`: scan the string left to right; a positive skip
counter means we are still inside the just-matched pattern occurrence (those
characters were already consumed by the match); `pre` accumulates, reversed,
the consumed prefix of the original string, which `getSub` needs for the
dollar-backquote pattern. -/
def raGo (pat val : List Char) : List Char → Nat → List Char → List Char
  | [], _, _ => []
  | c :: rest, n + 1, pre => raGo pat val rest n (c :: pre)
  | c :: rest, 0, pre =>
    if pat ≠ [] ∧ startsWith pat (c :: rest) then
      getSub pat pre.reverse ((c :: rest).drop pat.length) val ++
        raGo pat val rest (pat.length - 1) (c :: pre)
    else
      c :: raGo pat val rest 0 (c :: pre)

/-- JS `String.prototype.replace(/pat/g, val)` for a literal pattern `pat`:
replace every non-overlapping occurrence, scanning left to right, never
rescanning the substituted text, and expanding `$`-patterns in the
replacement string per `GetSubstitution`. -/
def replaceAll (pat val s : List Char) : List Char :=
  raGo pat val s 0 []

/-- Literal-substitution worker: `raGo` specialised to a `$`-free
replacement value, where the consumed prefix is irrelevant.  The
substitution proofs are staged on this model; `raGo_eq_raGoL` transfers
them to `raGo`. -/
def raGoL (pat val : List Char) : List Char → Nat → List Char
  | [], _ => []
  | _ :: rest, n + 1 => raGoL pat val rest n
  | c :: rest, 0 =>
    if pat ≠ [] ∧ startsWith pat (c :: rest) then
      val ++ raGoL pat val rest (pat.length - 1)
    else
      c :: raGoL pat val rest 0

/-- `replaceAll` for a `$`-free replacement value. -/
def replaceAllL (pat val s : List Char) : List Char :=
  raGoL pat val s 0

/-- Decimal rendering of a natural number, used inside error messages. -/
def natStr (n : Nat) : List Char := str (toString n)

/-- Decimal rendering of an integer, used inside error messages. -/
def intStr (n : Int) : List Char := str (toString n)

/-- `Contact` record from `src/types.ts`.  `name` and `phone` are required
strings in the TS type (the empty string models a missing value, which is
exactly how the JS truthiness checks in the code treat it); the remaining
fields are optional. -/
structure Contact where
  name : List Char
  firstName : Option (List Char) := none
  lastName : Option (List Char) := none
  phone : List Char
  company : Option (List Char) := none
  customField : Option (List Char) := none
deriving DecidableEq, Repr

/-- `personalizeMessage` from `src/utils.ts`: chain of five global literal
replacements, with `firstName`/`lastName` falling back to splitting `name`
on `' '` (JS `name.split(' ')[0]` / `name.split(' ').slice(1).join(' ')`). -/
def personalizeMessage (template : List Char) (contact : Contact) : List Char :=
  let firstName := contact.firstName.getD ((splitOnChar ' ' contact.name).headD [])
  let lastName :=
    contact.lastName.getD (List.intercalate [' '] ((splitOnChar ' ' contact.name).drop 1))
  replaceAll (str "{customField}") (contact.customField.getD [])
    (replaceAll (str "{company}") (contact.company.getD [])
      (replaceAll (str "{lastName}") lastName
        (replaceAll (str "{firstName}") firstName
          (replaceAll (str "{name}") contact.name template))))

/-- A single validation error, from `src/validation.ts`. -/
structure ValidationError where
  field : List Char
  message : List Char
deriving DecidableEq, Repr

/-- Result of a validation check, from `src/validation.ts`. -/
structure ValidationResult where
  valid : Bool
  errors : List ValidationError
deriving DecidableEq, Repr

/-- `isValidPhone` from `src/validation.ts`: strip whitespace, hyphens and
parentheses, then test the regex `^\+?\d{9,15}$`. -/
def isValidPhone (phone : List Char) : Bool :=
  let cleaned := phone.filter fun c => !(isJsSpace c || c = '-' || c = '(' || c = ')')
  match cleaned with
  | '+' :: ds => decide (9 ≤ ds.length ∧ ds.length ≤ 15) && ds.all Char.isDigit
  | ds => decide (9 ≤ ds.length ∧ ds.length ≤ 15) && ds.all Char.isDigit

/-- The `contacts[i]` prefix used in per-contact error fields. -/
def ctxPrefix (i : Nat) : List Char := str "contacts[" ++ natStr i ++ str "]"

/-- `validateContact` from `src/validation.ts`: requires a non-blank name and
a non-blank phone in valid format; returns all errors found. -/
def validateContact (contact : Contact) (index : Nat) : List ValidationError :=
  let pre := ctxPrefix index
  (if trimJs contact.name = [] then [⟨pre ++ str ".name", str "Name is required"⟩] else []) ++
  (if trimJs contact.phone = [] then
    [⟨pre ++ str ".phone", str "Phone number is required"⟩]
  else if !isValidPhone contact.phone then
    [⟨pre ++ str ".phone",
      str "Invalid phone number format: \"" ++ contact.phone ++
        str "\" (expected 9-15 digits, optional + prefix)"⟩]
  else [])

/-- Strip all non-digit characters (JS `phone.replace(/\D/g, '')`). -/
def normalizePhone (phone : List Char) : List Char := phone.filter Char.isDigit

/-- Append index `i` to the entry for `key`, or create a new entry at the end
(the insertion-order behaviour of the JS `Map` in `validateContacts`). -/
def insertIdx (key : List Char) (i : Nat) :
    List (List Char × List Nat) → List (List Char × List Nat)
  | [] => [(key, [i])]
  | (k, is) :: rest =>
    if k = key then (k, is ++ [i]) :: rest else (k, is) :: insertIdx key i rest

/-- The duplicate-phone `Map` built by `validateContacts`: for each contact
with a truthy (non-empty) phone, group its index under the normalized
phone. -/
def collectPhones : List Contact → Nat → List (List Char × List Nat) →
    List (List Char × List Nat)
  | [], _, acc => acc
  | c :: rest, i, acc =>
    collectPhones rest (i + 1)
      (if c.phone = [] then acc else insertIdx (normalizePhone c.phone) i acc)

/-- The message of a duplicate-phone error. -/
def dupMessage (phone : List Char) (indices : List Nat) : List Char :=
  str "Duplicate phone number \"" ++ phone ++ str "\" found at indices: " ++
    List.intercalate (str ", ") (indices.map natStr)

/-- The duplicate-phone error for a group. -/
def dupError (phone : List Char) (indices : List Nat) : ValidationError :=
  ⟨str "contacts", dupMessage phone indices⟩

/-- The duplicate error emitted for a map entry with two or more indices
(the `indices.length > 1` push in `validateContacts`). -/
def mkDup (g : List Char × List Nat) : Option ValidationError :=
  if 2 ≤ g.2.length then some (dupError g.1 g.2) else none

/-- `validateContacts` from `src/validation.ts`: reject the empty list,
aggregate every per-contact error, then report one error per group of two or
more equal normalized phones.  (The JS `Array.isArray` guard is vacuous in
the embedding since the argument is a list by type.) -/
def validateContacts (contacts : List Contact) : ValidationResult :=
  if contacts = [] then ⟨false, [⟨str "contacts", str "Contact list is empty"⟩]⟩
  else
    let perContact := (contacts.enum.map fun p => validateContact p.2 p.1).flatten
    let dups := (collectPhones contacts 0 []).filterMap mkDup
    let errors := perContact ++ dups
    ⟨errors.isEmpty, errors⟩

/-- JS `\w` word-character class. -/
def isWordChar (c : Char) : Bool := c.isAlpha || c.isDigit || c = '_'

/-- Worker for `scanPlaceholders`: replay of the JS
`while ((match = /\{(\w+)\}/g.exec(template)))` loop.  A positive skip
counter means we are inside the span already consumed by the last match. -/
def scanGo : List Char → Nat → List (List Char)
  | [], _ => []
  | _ :: rest, n + 1 => scanGo rest n
  | c :: rest, 0 =>
    if c = '{' then
      let w := rest.takeWhile isWordChar
      match rest.drop w.length with
      | '}' :: _ => if w.isEmpty then scanGo rest 0 else w :: scanGo rest (w.length + 1)
      | _ => scanGo rest 0
    else scanGo rest 0

/-- All `{word}` tokens of a template, in match order. -/
def scanPlaceholders (template : List Char) : List (List Char) :=
  scanGo template 0

/-- The fixed placeholder vocabulary, in the insertion order of the JS
`Set`. -/
def validPlaceholders : List (List Char) :=
  [str "name", str "firstName", str "lastName", str "company", str "customField"]

/-- The message of an unknown-placeholder error. -/
def unknownPhMessage (w : List Char) : List Char :=
  str "Unknown placeholder \"\x7b" ++ w ++
    str "\x7d\". Valid: {name}, {firstName}, {lastName}, {company}, {customField}"

/-- The unknown-placeholder error for a token. -/
def unknownPhError (w : List Char) : ValidationError :=
  ⟨str "messageTemplate", unknownPhMessage w⟩

/-- `validateMessageTemplate` from `src/validation.ts`: a blank template is
rejected immediately; otherwise the trimmed length is checked against 10,000
and every `{word}` token outside the vocabulary yields one error. -/
def validateMessageTemplate (template : List Char) : ValidationResult :=
  if trimJs template = [] then
    ⟨false, [⟨str "messageTemplate", str "Message template is required"⟩]⟩
  else
    let lenErrs :=
      if 10000 < (trimJs template).length then
        [(⟨str "messageTemplate",
          str "Message template exceeds maximum length of 10,000 characters"⟩ :
          ValidationError)]
      else []
    let phErrs := (scanPlaceholders template).filterMap fun w =>
      if w ∈ validPlaceholders then none else some (unknownPhError w)
    let errors := lenErrs ++ phErrs
    ⟨errors.isEmpty, errors⟩

/-- The nested `personalized` delay bounds from `src/types.ts`. -/
structure PersonalizedDelay where
  min : Int
  max : Int
deriving DecidableEq, Repr

/-- `DelayConfig` from `src/types.ts` (milliseconds). -/
structure DelayConfig where
  min : Int
  max : Int
  personalized : PersonalizedDelay
deriving DecidableEq, Repr

/-- `validateDelayConfig` from `src/validation.ts`. -/
def validateDelayConfig (config : DelayConfig) : ValidationResult :=
  let errors :=
    (if config.min < 0 then
      [(⟨str "delay.min", str "Minimum delay cannot be negative"⟩ : ValidationError)]
    else []) ++
    (if config.max < 0 then
      [(⟨str "delay.max", str "Maximum delay cannot be negative"⟩ : ValidationError)]
    else []) ++
    (if config.max < config.min then
      [(⟨str "delay",
        str "Minimum delay (" ++ intStr config.min ++ str ") cannot exceed maximum (" ++
          intStr config.max ++ str ")"⟩ : ValidationError)]
    else []) ++
    (if config.personalized.min < 0 then
      [(⟨str "delay.personalized.min",
        str "Personalized minimum delay cannot be negative"⟩ : ValidationError)]
    else []) ++
    (if config.personalized.max < 0 then
      [(⟨str "delay.personalized.max",
        str "Personalized maximum delay cannot be negative"⟩ : ValidationError)]
    else []) ++
    (if config.personalized.max < config.personalized.min then
      [(⟨str "delay.personalized",
        str "Personalized minimum (" ++ intStr config.personalized.min ++
          str ") cannot exceed maximum (" ++ intStr config.personalized.max ++ str ")"⟩ :
        ValidationError)]
    else [])
  ⟨errors.isEmpty, errors⟩

/-- `getRandomDelay` from `src/utils.ts`:
`Math.floor(Math.random() * (max - min + 1)) + min`, with the value of
`Math.random()` made explicit as the rational `r`.  The floor of the product
is computed on the numerator/denominator representation so that the
definition evaluates inside the kernel; `getRandomDelay_eq_floor` certifies
that it equals the source formula. -/
def getRandomDelay (min max : Int) (r : ℚ) : Int :=
  Int.ediv (r.num * (max - min + 1)) (r.den : Int) + min

/-- Per-recipient outcome tag, from `src/types.ts`. -/
inductive Status where
  | sent
  | failed
  | skipped
deriving DecidableEq, Repr

/-- `SendDetail` from `src/types.ts`. -/
structure SendDetail where
  contact : Contact
  status : Status
  reason : Option (List Char) := none
  error : Option (List Char) := none
deriving DecidableEq, Repr

/-- `BulkSendResults` from `src/types.ts`. -/
structure BulkSendResults where
  total : Nat
  sent : Nat
  failed : Nat
  skipped : Nat
  details : List SendDetail
deriving DecidableEq, Repr

/-- `BulkSendOptions` from `src/types.ts` (absent JS fields are `false`). -/
structure BulkSendOptions where
  validateNumbers : Bool := false
  noDelay : Bool := false
  personalize : Bool := false
deriving DecidableEq, Repr

/-- Deterministic model of the WhatsApp client plus the random source:
`isReg i` / `send i` give the outcome of `client.isRegisteredUser` /
`client.sendMessage` for recipient index `i` (`Except.error` models a thrown
error carrying its message), and `rand k` is the value of the `k`-th
`Math.random()` call. -/
structure Transport where
  isReg : Nat → Except (List Char) Bool
  send : Nat → Except (List Char) Unit
  rand : Nat → ℚ

/-- Externally visible actions of the dispatch loop, in order: registration
checks, message sends, and timed waits (`await delay(ms)`). -/
inductive Ev where
  | isRegistered (chatId : List Char)
  | sendMessage (chatId : List Char) (message : List Char)
  | wait (ms : Int)
deriving DecidableEq, Repr

/-- The `chatId` computed by the loop:
`contact.phone.replace(/\D/g, '') + '@c.us'`. -/
def chatId (contact : Contact) : List Char :=
  normalizePhone contact.phone ++ str "@c.us"

/-- Outcome of processing one recipient past the registration check: its
detail record, the events it emits (send plus optional wait), and the
updated consecutive-failure and random counters. -/
structure StepOut where
  detail : SendDetail
  events : List Ev
  cf : Nat
  k : Nat
deriving Repr

/-- The send attempt for one recipient (lines 166-208 of
`src/bulk-sender.ts`): personalize, send, then on success reset the failure
counter and wait the base(+personalized) delay, and on failure increment it
and wait the backed-off base delay; no wait after the last recipient. -/
def sendCore (t : Transport) (template : List Char) (options : BulkSendOptions)
    (delayConfig : DelayConfig) (contact : Contact) (isLast : Bool) (i cf k : Nat) :
    StepOut :=
  let cid := chatId contact
  let msg := personalizeMessage template contact
  match t.send i with
  | .ok _ =>
    if isLast then
      ⟨⟨contact, .sent, none, none⟩, [Ev.sendMessage cid msg], 0, k⟩
    else
      let waitTime := getRandomDelay delayConfig.min delayConfig.max (t.rand k)
      if options.personalize then
        let additionalDelay :=
          getRandomDelay delayConfig.personalized.min delayConfig.personalized.max
            (t.rand (k + 1))
        ⟨⟨contact, .sent, none, none⟩, [Ev.sendMessage cid msg, Ev.wait (waitTime + additionalDelay)],
          0, k + 2⟩
      else
        ⟨⟨contact, .sent, none, none⟩, [Ev.sendMessage cid msg, Ev.wait (waitTime + 0)], 0, k + 1⟩
  | .error message =>
    if isLast then
      ⟨⟨contact, .failed, none, some message⟩, [Ev.sendMessage cid msg], cf + 1, k⟩
    else
      let backoffMultiplier := min (cf + 1) 3
      let backoffDelay :=
        getRandomDelay delayConfig.min delayConfig.max (t.rand k) * (backoffMultiplier : Int)
      ⟨⟨contact, .failed, none, some message⟩,
        [Ev.sendMessage cid msg, Ev.wait backoffDelay], cf + 1, k + 1⟩

/-- `MAX_CONSECUTIVE_FAILURES` from `src/bulk-sender.ts`. -/
def MAX_CONSECUTIVE_FAILURES : Nat := 5

/-- The detail record of a recipient skipped by the abort path. -/
def abortSkip (contact : Contact) : SendDetail :=
  ⟨contact, .skipped, some (str "Aborted due to consecutive failures"), none⟩

/-- Aggregate state produced by the send loop over a suffix of the contact
list: the details in order, the counter increments, and the emitted
events. -/
structure LoopOut where
  details : List SendDetail
  sent : Nat
  failed : Nat
  skipped : Nat
  events : List Ev
deriving DecidableEq, Repr

/-- Prepend one processed recipient (its detail, its events, and the counter
bump its status causes) onto the outcome of the rest of the loop. -/
def consOut (d : SendDetail) (evs : List Ev) (r : LoopOut) : LoopOut :=
  ⟨d :: r.details,
    (if d.status = .sent then r.sent + 1 else r.sent),
    (if d.status = .failed then r.failed + 1 else r.failed),
    (if d.status = .skipped then r.skipped + 1 else r.skipped),
    evs ++ r.events⟩

/-- The send loop of `sendBulkMessages` (lines 103-209 of
`src/bulk-sender.ts`), as a recursion over the remaining contacts.  `i` is
the current index, `cf` the consecutive-failure counter, `k` the number of
`Math.random()` draws consumed so far. -/
def sendLoop (t : Transport) (template : List Char) (options : BulkSendOptions)
    (delayConfig : DelayConfig) :
    List Contact → Nat → Nat → Nat → LoopOut
  | [], _, _, _ => ⟨[], 0, 0, 0, []⟩
  | contact :: rest, i, cf, k =>
    if MAX_CONSECUTIVE_FAILURES ≤ cf then
      ⟨(contact :: rest).map abortSkip, 0, 0, rest.length + 1, []⟩
    else if contact.phone = [] then
      consOut ⟨contact, .skipped, some (str "No phone number"), none⟩ []
        (sendLoop t template options delayConfig rest (i + 1) cf k)
    else if options.validateNumbers then
      match t.isReg i with
      | .ok false =>
        consOut ⟨contact, .skipped, some (str "Not registered"), none⟩
          [Ev.isRegistered (chatId contact)]
          (sendLoop t template options delayConfig rest (i + 1) cf k)
      | .ok true =>
        let s := sendCore t template options delayConfig contact rest.isEmpty i cf k
        consOut s.detail (Ev.isRegistered (chatId contact) :: s.events)
          (sendLoop t template options delayConfig rest (i + 1) s.cf s.k)
      | .error _ =>
        let s := sendCore t template options delayConfig contact rest.isEmpty i cf k
        consOut s.detail (Ev.isRegistered (chatId contact) :: s.events)
          (sendLoop t template options delayConfig rest (i + 1) s.cf s.k)
    else
      let s := sendCore t template options delayConfig contact rest.isEmpty i cf k
      consOut s.detail s.events
        (sendLoop t template options delayConfig rest (i + 1) s.cf s.k)

/-- A recipient skipped because a validation phase failed. -/
def validationSkip (reason : List Char) (contact : Contact) : SendDetail :=
  ⟨contact, .skipped, some reason, none⟩

/-- `sendBulkMessages` from `src/bulk-sender.ts`: validate contacts, then
template, then delay config — any failure short-circuits with every contact
skipped and no transport call — otherwise run the send loop.  Returns the
results together with the trace of transport calls and waits. -/
def sendBulkMessages (t : Transport) (contacts : List Contact) (messageTemplate : List Char)
    (options : BulkSendOptions) (delayConfig : DelayConfig) :
    BulkSendResults × List Ev :=
  if !(validateContacts contacts).valid then
    (⟨contacts.length, 0, 0, contacts.length,
      contacts.map (validationSkip (str "Validation failed before sending"))⟩, [])
  else if !(validateMessageTemplate messageTemplate).valid then
    (⟨contacts.length, 0, 0, contacts.length,
      contacts.map (validationSkip (str "Invalid message template"))⟩, [])
  else if !(validateDelayConfig delayConfig).valid then
    (⟨contacts.length, 0, 0, contacts.length,
      contacts.map (validationSkip (str "Invalid delay configuration"))⟩, [])
  else
    let out := sendLoop t messageTemplate options delayConfig contacts 0 0 0
    (⟨contacts.length, out.sent, out.failed, out.skipped, out.details⟩, out.events)

/-- The five placeholders handled by `personalizeMessage`.  The spec's data
model names the fourth one `organization`; the code's field and token are
`company`. -/
inductive Ph where
  | name
  | firstName
  | lastName
  | company
  | customField
deriving DecidableEq, Repr

/-- The literal token of a placeholder. -/
def phTok : Ph → List Char
  | .name => str "{name}"
  | .firstName => str "{firstName}"
  | .lastName => str "{lastName}"
  | .company => str "{company}"
  | .customField => str "{customField}"

/-- The value `personalizeMessage` substitutes for a placeholder: the contact
field, with the code's fallbacks (split of `name` on `' '` for
`firstName`/`lastName`, empty string for absent fields). -/
def phVal (contact : Contact) : Ph → List Char
  | .name => contact.name
  | .firstName => contact.firstName.getD ((splitOnChar ' ' contact.name).headD [])
  | .lastName =>
    contact.lastName.getD (List.intercalate [' '] ((splitOnChar ' ' contact.name).drop 1))
  | .company => contact.company.getD []
  | .customField => contact.customField.getD []

/-- The five (token, value) replacement pairs, in the order the code applies
them. -/
def pairs (contact : Contact) : List (List Char × List Char) :=
  [(phTok .name, phVal contact .name),
   (phTok .firstName, phVal contact .firstName),
   (phTok .lastName, phVal contact .lastName),
   (phTok .company, phVal contact .company),
   (phTok .customField, phVal contact .customField)]

/-- Sequential application of a list of replacements, first pair first. -/
def subsChain : List (List Char × List Char) → List Char → List Char
  | [], s => s
  | pv :: rest, s => subsChain rest (replaceAll pv.1 pv.2 s)

/-- `subsChain` over the literal-substitution model. -/
def subsChainL : List (List Char × List Char) → List Char → List Char
  | [], s => s
  | pv :: rest, s => subsChainL rest (replaceAllL pv.1 pv.2 s)

/-- A template decomposed into literal fragments and placeholder tokens. -/
inductive Seg where
  | lit (s : List Char)
  | ph (p : Ph)
deriving DecidableEq, Repr

/-- Reassemble a template from segments. -/
def render : List Seg → List Char
  | [] => []
  | .lit s :: rest => s ++ render rest
  | .ph p :: rest => phTok p ++ render rest

/-- Simultaneous substitution of all placeholders, the specification-level
reading of "replace every occurrence of each token with the corresponding
field". -/
def substSpec (contact : Contact) : List Seg → List Char
  | [] => []
  | .lit s :: rest => s ++ substSpec contact rest
  | .ph p :: rest => phVal contact p ++ substSpec contact rest

/-- A literal segment may not contain `'{'` (placeholder occurrences are the
`Seg.ph` segments). -/
def SegOk : Seg → Prop
  | .lit s => '{' ∉ s
  | .ph _ => True

instance : DecidablePred SegOk := fun sg =>
  match sg with
  | .lit s => inferInstanceAs (Decidable ('{' ∉ s))
  | .ph _ => inferInstanceAs (Decidable True)

/-- Split on a character-class predicate (empty fragments included). -/
def splitOnPred (p : Char → Bool) : List Char → List (List Char)
  | [] => [[]]
  | c :: rest =>
    match splitOnPred p rest with
    | [] => [[c]]
    | t :: ts => if p c then [] :: t :: ts else (c :: t) :: ts

/-- Tokenisation of a string on whitespace, following the spec's words
"splitting name on whitespace": the maximal runs of non-whitespace
characters. -/
def wsTokens (s : List Char) : List (List Char) :=
  (splitOnPred isJsSpace s).filter (· ≠ [])

/-- Association-list lookup on the duplicate-phone map. -/
def lookupKey (d : List Char) : List (List Char × List Nat) → Option (List Nat)
  | [] => none
  | (k, is) :: rest => if k = d then some is else lookupKey d rest

/-- Merge a previous lookup result with the indices found later. -/
def combine (o : Option (List Nat)) (ys : List Nat) : Option (List Nat) :=
  match o with
  | some xs => some (xs ++ ys)
  | none => if ys = [] then none else some ys

/-- The indices (from position `i` on) of the contacts with a non-empty
phone whose normalized phone is `d` — the declarative duplicate group of
`d`. -/
def idxsFrom (d : List Char) : List Contact → Nat → List Nat
  | [], _ => []
  | c :: rest, i =>
    (if c.phone ≠ [] ∧ normalizePhone c.phone = d then [i] else []) ++ idxsFrom d rest (i + 1)

/-- All characters are decimal digits. -/
def allDigit (s : List Char) : Bool := s.all Char.isDigit

/-- Recognizes the unknown-placeholder errors among a template's errors. -/
def isUnknownPh (e : ValidationError) : Bool :=
  startsWith (str "Unknown placeholder") e.message

/-- Replace the registration-check result at index `i` with "registered". -/
def setRegOk (t : Transport) (i : Nat) : Transport :=
  { t with isReg := fun j => if j = i then .ok true else t.isReg j }

/-- A transport whose every send fails. -/
def tFail : Transport :=
  { isReg := fun _ => .ok true, send := fun _ => .error (str "boom"), rand := fun _ => 0 }

/-- A transport whose every call succeeds. -/
def tOk : Transport :=
  { isReg := fun _ => .ok true, send := fun _ => .ok (), rand := fun _ => 0 }

/-- A transport that reports every number as not registered. -/
def tNotReg : Transport :=
  { isReg := fun _ => .ok false, send := fun _ => .ok (), rand := fun _ => 0 }

/-- A transport whose registration check always throws. -/
def tRegThrows : Transport :=
  { isReg := fun _ => .error (str "network"), send := fun _ => .ok (), rand := fun _ => 0 }

/-- The `i`-th of ten distinct valid contacts. -/
def mkC (i : Nat) : Contact := { name := str "A", phone := str "97250000000" ++ natStr i }

/-- Ten distinct valid contacts. -/
def cs10 : List Contact := (List.range 10).map mkC

/-- A valid all-zero delay configuration. -/
def cfg0 : DelayConfig := { min := 0, max := 0, personalized := { min := 0, max := 0 } }

/-- An invalid delay configuration (`min > max`). -/
def cfgBad : DelayConfig := { min := 5, max := 2, personalized := { min := 0, max := 0 } }

/-- Two contacts with the same phone number (contact validation fails). -/
def csDup : List Contact :=
  [{ name := str "A", phone := str "972501234567" },
   { name := str "B", phone := str "972501234567" }]

/-- The spec's duplicate-detection example: two spellings of one number. -/
def csEx : List Contact :=
  [{ name := str "A", phone := str "972-50-1234567" },
   { name := str "B", phone := str "9725 01234567" }]

/-- Segments of the template `"Hi {firstName} from {company}"`. -/
def segsW : List Seg :=
  [Seg.lit (str "Hi "), Seg.ph .firstName, Seg.lit (str " from "), Seg.ph .company]

/-- The spec's personalization example recipient. -/
def danaW : Contact :=
  { name := str "Dana Levi", phone := str "972501234567", company := some (str "Acme") }

/-- Recognizes duplicate-phone errors among contact-validation errors. -/
def isDupErr (e : ValidationError) : Bool :=
  startsWith (str "Duplicate") e.message

/-! ### Theorems -/

/-- `getRandomDelay` computes `⌊r * (max - min + 1)⌋ + min`, exactly the JS
expression. -/
theorem getRandomDelay_eq_floor (min max : Int) (r : ℚ) :
    getRandomDelay min max r = ⌊r * (((max : ℚ)) - ((min : ℚ)) + 1)⌋ + min := by
  have hcast : ((max : ℚ)) - ((min : ℚ)) + 1 = (((max - min + 1 : Int)) : ℚ) := by
    push_cast
    ring
  have hprod : r * (((max - min + 1 : Int)) : ℚ) =
      ((r.num * (max - min + 1) : ℤ) : ℚ) / ((r.den : ℕ) : ℚ) := by
    conv_lhs => rw [← Rat.num_div_den r]
    push_cast
    ring
  rw [getRandomDelay, hcast, hprod, Rat.floor_intCast_div_natCast]
  rfl

theorem raGoL_nil (pat val : List Char) (n : Nat) : raGoL pat val [] n = [] := by
  cases n <;> simp [raGoL]

theorem raGoL_skip (pat val : List Char) (x t : List Char) :
    raGoL pat val (x ++ t) x.length = raGoL pat val t 0 := by
  induction x with
  | nil => rfl
  | cons c xs ih => simpa [raGoL] using ih

theorem startsWith_append_self (p u : List Char) : startsWith p (p ++ u) = true := by
  induction p with
  | nil => rfl
  | cons c cs ih => simp [startsWith, ih]

theorem startsWith_iff (p s : List Char) : startsWith p s = true ↔ ∃ u, s = p ++ u := by
  induction p generalizing s with
  | nil => simp [startsWith]
  | cons c cs ih =>
    cases s with
    | nil => simp [startsWith]
    | cons d ss =>
      simp only [startsWith, Bool.and_eq_true, decide_eq_true_eq, ih]
      constructor
      · rintro ⟨rfl, u, rfl⟩
        exact ⟨u, rfl⟩
      · rintro ⟨u, hu⟩
        obtain ⟨rfl, rfl⟩ : c = d ∧ ss = cs ++ u := by
          have h1 := congrArg List.head? hu
          have h2 := congrArg List.tail hu
          simp at h1 h2
          exact ⟨h1.symm, h2⟩
        exact ⟨rfl, u, rfl⟩

theorem raGoL_match (pat val u : List Char) (h : pat ≠ []) :
    raGoL pat val (pat ++ u) 0 = val ++ raGoL pat val u 0 := by
  obtain ⟨c, cs, rfl⟩ : ∃ c cs, pat = c :: cs := by
    cases pat with
    | nil => exact absurd rfl h
    | cons c cs => exact ⟨c, cs, rfl⟩
  have hsw : startsWith (c :: cs) (c :: (cs ++ u)) = true := by
    simpa using startsWith_append_self (c :: cs) u
  have hstep : raGoL (c :: cs) val (c :: (cs ++ u)) 0 =
      val ++ raGoL (c :: cs) val (cs ++ u) ((c :: cs).length - 1) := by
    rw [raGoL, if_pos ⟨h, hsw⟩]
  rw [List.cons_append, hstep]
  have : (c :: cs).length - 1 = cs.length := by simp
  rw [this, raGoL_skip]

theorem raGoL_pass (pat val pb x t : List Char) (hpat : pat = '{' :: pb) (hx : '{' ∉ x) :
    raGoL pat val (x ++ t) 0 = x ++ raGoL pat val t 0 := by
  induction x with
  | nil => rfl
  | cons c xs ih =>
    have hc : c ≠ '{' := fun hc => hx (by simp [hc])
    have hc' : ('{' : Char) ≠ c := fun hh => hc hh.symm
    have hsw : startsWith pat (c :: (xs ++ t)) = false := by
      subst hpat
      simp [startsWith, hc']
    have hx' : '{' ∉ xs := fun hmem => hx (List.mem_cons_of_mem _ hmem)
    have hstep : raGoL pat val (c :: (xs ++ t)) 0 = c :: raGoL pat val (xs ++ t) 0 := by
      rw [raGoL, if_neg]
      intro hcond
      rw [hsw] at hcond
      exact Bool.false_ne_true hcond.2
    simp only [List.cons_append, hstep, ih hx']

theorem raGoL_tok_pass (pat val pb xb t : List Char) (hpat : pat = '{' :: pb)
    (hxb : '{' ∉ xb) (hns : ¬ startsWith pat (('{' :: xb) ++ t) = true) :
    raGoL pat val (('{' :: xb) ++ t) 0 = ('{' :: xb) ++ raGoL pat val t 0 := by
  have h1 : raGoL pat val (('{' :: xb) ++ t) 0 = '{' :: raGoL pat val (xb ++ t) 0 := by
    simp only [List.cons_append]
    rw [raGoL]
    rw [if_neg]
    intro hcond
    exact hns (by simpa using hcond.2)
  rw [h1, raGoL_pass pat val pb xb t hpat hxb]
  rfl

theorem not_startsWith_of_take_ne (p x u : List Char) (n : Nat)
    (hp : n ≤ p.length) (hx : n ≤ x.length) (hne : p.take n ≠ x.take n) :
    ¬ startsWith p (x ++ u) = true := by
  intro h
  obtain ⟨v, hv⟩ := (startsWith_iff _ _).1 h
  apply hne
  have h1 : (x ++ u).take n = x.take n := List.take_append_of_le_length hx
  have h2 : (p ++ v).take n = p.take n := List.take_append_of_le_length hp
  rw [← h2, ← hv, h1]

theorem personalize_eq_chain (template : List Char) (contact : Contact) :
    personalizeMessage template contact = subsChain (pairs contact) template := rfl

theorem phTok_shape (p : Ph) :
    phTok p = '{' :: (phTok p).tail ∧ '{' ∉ (phTok p).tail ∧ 3 ≤ (phTok p).length := by
  cases p <;> exact ⟨rfl, by decide, by decide⟩

theorem phTok_take_ne (p q : Ph) (hpq : p ≠ q) : (phTok p).take 3 ≠ (phTok q).take 3 := by
  cases p <;> cases q <;> first
  | exact absurd rfl hpq
  | decide

theorem phTok_ne_nil (p : Ph) : phTok p ≠ [] := by
  cases p <;> decide

theorem phTok_cons (p : Ph) : ∃ pb, phTok p = '{' :: pb := by
  cases p <;> exact ⟨_, rfl⟩

theorem pair_fst_cons (p : Ph) (v : List Char) : ∃ pb, (phTok p, v).1 = '{' :: pb :=
  phTok_cons p

theorem chain_nil (l : List (List Char × List Char)) : subsChainL l [] = [] := by
  induction l with
  | nil => rfl
  | cons pv rest ih => simpa [subsChainL, replaceAllL, raGoL_nil] using ih

theorem chain_pass (l : List (List Char × List Char))
    (hl : ∀ pv ∈ l, ∃ pb, pv.1 = '{' :: pb) (x : List Char) (hx : '{' ∉ x) :
    ∀ t, subsChainL l (x ++ t) = x ++ subsChainL l t := by
  induction l with
  | nil => intro t; rfl
  | cons pv rest ih =>
    intro t
    obtain ⟨pb, hpb⟩ := hl pv (List.mem_cons_self _ _)
    have hrest : ∀ qv ∈ rest, ∃ pb, qv.1 = '{' :: pb := fun qv hqv =>
      hl qv (List.mem_cons_of_mem _ hqv)
    calc subsChainL (pv :: rest) (x ++ t)
        = subsChainL rest (replaceAllL pv.1 pv.2 (x ++ t)) := rfl
      _ = subsChainL rest (x ++ replaceAllL pv.1 pv.2 t) := by
          rw [replaceAllL, raGoL_pass pv.1 pv.2 pb x t hpb hx]; rfl
      _ = x ++ subsChainL rest (replaceAllL pv.1 pv.2 t) := ih hrest _
      _ = x ++ subsChainL (pv :: rest) t := rfl

theorem chain_append (l₁ l₂ : List (List Char × List Char)) (s : List Char) :
    subsChainL (l₁ ++ l₂) s = subsChainL l₂ (subsChainL l₁ s) := by
  induction l₁ generalizing s with
  | nil => rfl
  | cons pv rest ih => simp [subsChainL, ih]

theorem chain_clash (l : List (List Char × List Char)) (q : Ph)
    (hl : ∀ pv ∈ l, ∃ p : Ph, pv.1 = phTok p ∧ p ≠ q) :
    ∀ t, subsChainL l (phTok q ++ t) = phTok q ++ subsChainL l t := by
  induction l with
  | nil => intro t; rfl
  | cons pv rest ih =>
    intro t
    obtain ⟨p, hp, hpq⟩ := hl pv (List.mem_cons_self _ _)
    have hrest : ∀ qv ∈ rest, ∃ p : Ph, qv.1 = phTok p ∧ p ≠ q := fun qv hqv =>
      hl qv (List.mem_cons_of_mem _ hqv)
    have hq := phTok_shape q
    have hp' := phTok_shape p
    have hns : ¬ startsWith pv.1 (phTok q ++ t) = true := by
      rw [hp]
      exact not_startsWith_of_take_ne _ _ _ 3 hp'.2.2 hq.2.2 (phTok_take_ne p q hpq)
    have hq1 : phTok q = '{' :: (phTok q).tail := hq.1
    have hstep : replaceAllL pv.1 pv.2 (phTok q ++ t) = phTok q ++ replaceAllL pv.1 pv.2 t := by
      calc replaceAllL pv.1 pv.2 (phTok q ++ t)
          = raGoL pv.1 pv.2 (('{' :: (phTok q).tail) ++ t) 0 := by rw [replaceAllL, ← hq1]
        _ = ('{' :: (phTok q).tail) ++ raGoL pv.1 pv.2 t 0 := by
            apply raGoL_tok_pass pv.1 pv.2 (phTok p).tail (phTok q).tail t
            · rw [hp]; exact hp'.1
            · exact hq.2.1
            · rw [← hq1]; exact hns
        _ = phTok q ++ replaceAllL pv.1 pv.2 t := by rw [replaceAllL, ← hq1]
    calc subsChainL (pv :: rest) (phTok q ++ t)
        = subsChainL rest (replaceAllL pv.1 pv.2 (phTok q ++ t)) := rfl
      _ = subsChainL rest (phTok q ++ replaceAllL pv.1 pv.2 t) := by rw [hstep]
      _ = phTok q ++ subsChainL (pv :: rest) t := ih hrest _

theorem chain_subst (q : Ph) (v : List Char) (l₁ l₂ : List (List Char × List Char))
    (h₁ : ∀ pv ∈ l₁, ∃ p : Ph, pv.1 = phTok p ∧ p ≠ q)
    (h₂ : ∀ pv ∈ l₂, ∃ pb, pv.1 = '{' :: pb)
    (hv : '{' ∉ v) (t : List Char) :
    subsChainL (l₁ ++ (phTok q, v) :: l₂) (phTok q ++ t) =
      v ++ subsChainL (l₁ ++ (phTok q, v) :: l₂) t := by
  rw [chain_append, chain_append]
  rw [chain_clash l₁ q h₁ t]
  show subsChainL l₂ (replaceAllL (phTok q) v (phTok q ++ subsChainL l₁ t)) =
    v ++ subsChainL l₂ (replaceAllL (phTok q) v (subsChainL l₁ t))
  rw [replaceAllL, raGoL_match (phTok q) v _ (phTok_ne_nil q)]
  exact chain_pass l₂ h₂ v hv _

theorem pairs_shape (contact : Contact) :
    ∀ pv ∈ pairs contact, ∃ pb, pv.1 = '{' :: pb := by
  intro pv h
  simp only [pairs, List.mem_cons, List.not_mem_nil, or_false] at h
  rcases h with rfl | rfl | rfl | rfl | rfl <;> exact pair_fst_cons _ _

theorem chain_renderL (contact : Contact) :
    ∀ segs : List Seg, (∀ sg ∈ segs, SegOk sg) → (∀ p : Ph, '{' ∉ phVal contact p) →
      subsChainL (pairs contact) (render segs) = substSpec contact segs := by
  intro segs
  induction segs with
  | nil => intro _ _; exact chain_nil _
  | cons sg rest ih =>
    intro hok hv
    have hrest : ∀ x ∈ rest, SegOk x := fun x hx => hok x (List.mem_cons_of_mem _ hx)
    cases sg with
    | lit s =>
      have hs : '{' ∉ s := hok (.lit s) (List.mem_cons_self _ _)
      show subsChainL (pairs contact) (s ++ render rest) = s ++ substSpec contact rest
      rw [chain_pass (pairs contact) (pairs_shape contact) s hs, ih hrest hv]
    | ph q =>
      show subsChainL (pairs contact) (phTok q ++ render rest) =
        phVal contact q ++ substSpec contact rest
      rw [← ih hrest hv]
      cases q with
      | name =>
        exact chain_subst .name (phVal contact .name) []
          [(phTok .firstName, phVal contact .firstName),
           (phTok .lastName, phVal contact .lastName),
           (phTok .company, phVal contact .company),
           (phTok .customField, phVal contact .customField)]
          (by intro pv h; simp at h)
          (by
            intro pv h
            simp only [List.mem_cons, List.not_mem_nil, or_false] at h
            rcases h with rfl | rfl | rfl | rfl <;> exact pair_fst_cons _ _)
          (hv .name) (render rest)
      | firstName =>
        exact chain_subst .firstName (phVal contact .firstName)
          [(phTok .name, phVal contact .name)]
          [(phTok .lastName, phVal contact .lastName),
           (phTok .company, phVal contact .company),
           (phTok .customField, phVal contact .customField)]
          (by
            intro pv h
            simp only [List.mem_cons, List.not_mem_nil, or_false] at h
            rcases h with rfl
            exact ⟨.name, rfl, by decide⟩)
          (by
            intro pv h
            simp only [List.mem_cons, List.not_mem_nil, or_false] at h
            rcases h with rfl | rfl | rfl <;> exact pair_fst_cons _ _)
          (hv .firstName) (render rest)
      | lastName =>
        exact chain_subst .lastName (phVal contact .lastName)
          [(phTok .name, phVal contact .name),
           (phTok .firstName, phVal contact .firstName)]
          [(phTok .company, phVal contact .company),
           (phTok .customField, phVal contact .customField)]
          (by
            intro pv h
            simp only [List.mem_cons, List.not_mem_nil, or_false] at h
            rcases h with rfl | rfl
            · exact ⟨.name, rfl, by decide⟩
            · exact ⟨.firstName, rfl, by decide⟩)
          (by
            intro pv h
            simp only [List.mem_cons, List.not_mem_nil, or_false] at h
            rcases h with rfl | rfl <;> exact pair_fst_cons _ _)
          (hv .lastName) (render rest)
      | company =>
        exact chain_subst .company (phVal contact .company)
          [(phTok .name, phVal contact .name),
           (phTok .firstName, phVal contact .firstName),
           (phTok .lastName, phVal contact .lastName)]
          [(phTok .customField, phVal contact .customField)]
          (by
            intro pv h
            simp only [List.mem_cons, List.not_mem_nil, or_false] at h
            rcases h with rfl | rfl | rfl
            · exact ⟨.name, rfl, by decide⟩
            · exact ⟨.firstName, rfl, by decide⟩
            · exact ⟨.lastName, rfl, by decide⟩)
          (by
            intro pv h
            simp only [List.mem_cons, List.not_mem_nil, or_false] at h
            rcases h with rfl
            exact pair_fst_cons _ _)
          (hv .company) (render rest)
      | customField =>
        exact chain_subst .customField (phVal contact .customField)
          [(phTok .name, phVal contact .name),
           (phTok .firstName, phVal contact .firstName),
           (phTok .lastName, phVal contact .lastName),
           (phTok .company, phVal contact .company)]
          []
          (by
            intro pv h
            simp only [List.mem_cons, List.not_mem_nil, or_false] at h
            rcases h with rfl | rfl | rfl | rfl
            · exact ⟨.name, rfl, by decide⟩
            · exact ⟨.firstName, rfl, by decide⟩
            · exact ⟨.lastName, rfl, by decide⟩
            · exact ⟨.company, rfl, by decide⟩)
          (by intro pv h; simp at h)
          (hv .customField) (render rest)

theorem getSub_id (matched bef aft : List Char) :
    ∀ val : List Char, '$' ∉ val → getSub matched bef aft val = val
  | [], _ => rfl
  | c :: rest, h => by
    have hc : ¬ c = '$' := fun hh => h (by simp [hh])
    have hr : '$' ∉ rest := fun hh => h (List.mem_cons_of_mem _ hh)
    rw [getSub.eq_def]
    simp only [if_neg hc]
    rw [getSub_id matched bef aft rest hr]

theorem raGo_eq_raGoL (pat val : List Char) (hval : '$' ∉ val) :
    ∀ (s : List Char) (n : Nat) (pre : List Char),
      raGo pat val s n pre = raGoL pat val s n
  | [], n, pre => by cases n <;> rfl
  | c :: rest, n + 1, pre => by
    simp only [raGo, raGoL]
    exact raGo_eq_raGoL pat val hval rest n (c :: pre)
  | c :: rest, 0, pre => by
    by_cases h : pat ≠ [] ∧ startsWith pat (c :: rest) = true
    · simp only [raGo, raGoL, if_pos h]
      rw [getSub_id pat pre.reverse ((c :: rest).drop pat.length) val hval]
      rw [raGo_eq_raGoL pat val hval rest (pat.length - 1) (c :: pre)]
    · simp only [raGo, raGoL, if_neg h]
      rw [raGo_eq_raGoL pat val hval rest 0 (c :: pre)]

theorem replaceAll_eq_literal (pat val : List Char) (hval : '$' ∉ val) (s : List Char) :
    replaceAll pat val s = replaceAllL pat val s :=
  raGo_eq_raGoL pat val hval s 0 []

theorem subsChain_eq_L :
    ∀ l : List (List Char × List Char), (∀ pv ∈ l, '$' ∉ pv.2) →
      ∀ s, subsChain l s = subsChainL l s
  | [], _, s => rfl
  | pv :: rest, hl, s => by
    have h1 : '$' ∉ pv.2 := hl pv (List.mem_cons_self _ _)
    have h2 : ∀ qv ∈ rest, '$' ∉ qv.2 := fun qv hq => hl qv (List.mem_cons_of_mem _ hq)
    show subsChain rest (replaceAll pv.1 pv.2 s) = subsChainL rest (replaceAllL pv.1 pv.2 s)
    rw [replaceAll_eq_literal pv.1 pv.2 h1 s]
    exact subsChain_eq_L rest h2 _

theorem pairs_val (contact : Contact) :
    ∀ pv ∈ pairs contact, ∃ p : Ph, pv.2 = phVal contact p := by
  intro pv h
  simp only [pairs, List.mem_cons, List.not_mem_nil, or_false] at h
  rcases h with rfl | rfl | rfl | rfl | rfl
  · exact ⟨.name, rfl⟩
  · exact ⟨.firstName, rfl⟩
  · exact ⟨.lastName, rfl⟩
  · exact ⟨.company, rfl⟩
  · exact ⟨.customField, rfl⟩

theorem chain_render (contact : Contact) :
    ∀ segs : List Seg, (∀ sg ∈ segs, SegOk sg) → (∀ p : Ph, '{' ∉ phVal contact p) →
      (∀ p : Ph, '$' ∉ phVal contact p) →
      subsChain (pairs contact) (render segs) = substSpec contact segs := by
  intro segs hok hb hd
  have hdv : ∀ pv ∈ pairs contact, '$' ∉ pv.2 := by
    intro pv hpv
    obtain ⟨p, hp⟩ := pairs_val contact pv hpv
    rw [hp]
    exact hd p
  rw [subsChain_eq_L (pairs contact) hdv (render segs)]
  exact chain_renderL contact segs hok hb

theorem getRandomDelay_bounds (min max : Int) (r : ℚ) (hmm : min ≤ max)
    (h0 : 0 ≤ r) (h1 : r < 1) :
    min ≤ getRandomDelay min max r ∧ getRandomDelay min max r ≤ max := by
  rw [getRandomDelay_eq_floor]
  have hn : (0 : ℚ) < (max : ℚ) - (min : ℚ) + 1 := by
    have : (min : ℚ) ≤ (max : ℚ) := by exact_mod_cast hmm
    linarith
  constructor
  · have hfl : (0 : Int) ≤ ⌊r * ((max : ℚ) - (min : ℚ) + 1)⌋ := by
      apply Int.le_floor.mpr
      push_cast
      exact mul_nonneg h0 (le_of_lt hn)
    omega
  · have hlt : ⌊r * ((max : ℚ) - (min : ℚ) + 1)⌋ < max - min + 1 := by
      apply Int.floor_lt.mpr
      push_cast
      calc r * ((max : ℚ) - (min : ℚ) + 1)
          < 1 * ((max : ℚ) - (min : ℚ) + 1) := by
            exact mul_lt_mul_of_pos_right h1 hn
        _ = (max : ℚ) - (min : ℚ) + 1 := one_mul _
    omega

theorem sendCore_detail (t : Transport) (template : List Char) (options : BulkSendOptions)
    (delayConfig : DelayConfig) (contact : Contact) (isLast : Bool) (i cf k : Nat) :
    (sendCore t template options delayConfig contact isLast i cf k).detail =
      match t.send i with
      | .ok _ => ⟨contact, .sent, none, none⟩
      | .error m => ⟨contact, .failed, none, some m⟩ := by
  rcases h : t.send i with m | u <;> simp only [sendCore, h] <;> split_ifs <;> rfl

theorem sendCore_cf (t : Transport) (template : List Char) (options : BulkSendOptions)
    (delayConfig : DelayConfig) (contact : Contact) (isLast : Bool) (i cf k : Nat) :
    (sendCore t template options delayConfig contact isLast i cf k).cf =
      match t.send i with
      | .ok _ => 0
      | .error _ => cf + 1 := by
  rcases h : t.send i with m | u <;> simp only [sendCore, h] <;> split_ifs <;> rfl

/-- Number of details with each status, summed, is the total number of
details. -/
theorem countP_status_partition (ds : List SendDetail) :
    ds.countP (fun d => decide (d.status = .sent)) +
      ds.countP (fun d => decide (d.status = .failed)) +
      ds.countP (fun d => decide (d.status = .skipped)) = ds.length := by
  induction ds with
  | nil => rfl
  | cons d rest ih =>
    simp only [List.countP_cons, List.length_cons]
    cases h : d.status <;> simp [h] <;> omega

theorem map_abortSkip_contact (l : List Contact) :
    (l.map abortSkip).map (fun d => d.contact) = l := by
  induction l with
  | nil => rfl
  | cons c cs ih => simpa [abortSkip] using ih

theorem countP_abortSkip (l : List Contact) :
    (l.map abortSkip).countP (fun d => decide (d.status = .sent)) = 0 ∧
    (l.map abortSkip).countP (fun d => decide (d.status = .failed)) = 0 ∧
    (l.map abortSkip).countP (fun d => decide (d.status = .skipped)) = l.length := by
  induction l with
  | nil => exact ⟨rfl, rfl, rfl⟩
  | cons c cs ih => simp [List.countP_cons, abortSkip, ih.1, ih.2.1, ih.2.2]

/-- `sendCore` always reports the processed contact. -/
theorem sendCore_contact (t : Transport) (template : List Char) (options : BulkSendOptions)
    (delayConfig : DelayConfig) (contact : Contact) (isLast : Bool) (i cf k : Nat) :
    (sendCore t template options delayConfig contact isLast i cf k).detail.contact = contact := by
  rw [sendCore_detail]
  rcases t.send i with m | u <;> rfl

/-- Prepending one processed recipient preserves the loop invariant. -/
theorem consOut_inv (c : Contact) (d : SendDetail) (evs : List Ev) (r : LoopOut)
    (rest : List Contact) (hdc : d.contact = c)
    (h1 : r.details.map (fun x => x.contact) = rest)
    (h2 : r.sent = r.details.countP (fun x => decide (x.status = .sent)))
    (h3 : r.failed = r.details.countP (fun x => decide (x.status = .failed)))
    (h4 : r.skipped = r.details.countP (fun x => decide (x.status = .skipped))) :
    (consOut d evs r).details.map (fun x => x.contact) = c :: rest ∧
    (consOut d evs r).sent =
      (consOut d evs r).details.countP (fun x => decide (x.status = .sent)) ∧
    (consOut d evs r).failed =
      (consOut d evs r).details.countP (fun x => decide (x.status = .failed)) ∧
    (consOut d evs r).skipped =
      (consOut d evs r).details.countP (fun x => decide (x.status = .skipped)) := by
  cases hds : d.status <;>
    simp [consOut, List.countP_cons, h1, h2, h3, h4, hdc, hds]

/-- The loop invariant: the details carry the input contacts in order, and
each counter counts the details with its status. -/
theorem sendLoop_inv (t : Transport) (template : List Char) (options : BulkSendOptions)
    (delayConfig : DelayConfig) :
    ∀ (contacts : List Contact) (i cf k : Nat),
      (sendLoop t template options delayConfig contacts i cf k).details.map (·.contact) =
          contacts ∧
      (sendLoop t template options delayConfig contacts i cf k).sent =
        (sendLoop t template options delayConfig contacts i cf k).details.countP
          (fun d => decide (d.status = .sent)) ∧
      (sendLoop t template options delayConfig contacts i cf k).failed =
        (sendLoop t template options delayConfig contacts i cf k).details.countP
          (fun d => decide (d.status = .failed)) ∧
      (sendLoop t template options delayConfig contacts i cf k).skipped =
        (sendLoop t template options delayConfig contacts i cf k).details.countP
          (fun d => decide (d.status = .skipped)) := by
  intro contacts
  induction contacts with
  | nil => intro i cf k; exact ⟨rfl, rfl, rfl, rfl⟩
  | cons c rest ih =>
    intro i cf k
    by_cases h5 : MAX_CONSECUTIVE_FAILURES ≤ cf
    · simp only [sendLoop, if_pos h5]
      refine ⟨map_abortSkip_contact _, ?_, ?_, ?_⟩
      · exact ((countP_abortSkip (c :: rest)).1).symm
      · exact ((countP_abortSkip (c :: rest)).2.1).symm
      · simpa using ((countP_abortSkip (c :: rest)).2.2).symm
    · by_cases hp : c.phone = []
      · have hx := ih (i + 1) cf k
        simp only [sendLoop, if_neg h5, if_pos hp]
        exact consOut_inv c _ _ _ rest rfl hx.1 hx.2.1 hx.2.2.1 hx.2.2.2
      · by_cases hv : options.validateNumbers
        · rcases hreg : t.isReg i with e | b
          · simp only [sendLoop, if_neg h5, if_neg hp, if_pos hv, hreg]
            have hx := ih (i + 1)
              (sendCore t template options delayConfig c rest.isEmpty i cf k).cf
              (sendCore t template options delayConfig c rest.isEmpty i cf k).k
            exact consOut_inv c _ _ _ rest (sendCore_contact ..)
              hx.1 hx.2.1 hx.2.2.1 hx.2.2.2
          · cases b
            · simp only [sendLoop, if_neg h5, if_neg hp, if_pos hv, hreg]
              have hx := ih (i + 1) cf k
              exact consOut_inv c _ _ _ rest rfl hx.1 hx.2.1 hx.2.2.1 hx.2.2.2
            · simp only [sendLoop, if_neg h5, if_neg hp, if_pos hv, hreg]
              have hx := ih (i + 1)
                (sendCore t template options delayConfig c rest.isEmpty i cf k).cf
                (sendCore t template options delayConfig c rest.isEmpty i cf k).k
              exact consOut_inv c _ _ _ rest (sendCore_contact ..)
                hx.1 hx.2.1 hx.2.2.1 hx.2.2.2
        · simp only [sendLoop, if_neg h5, if_neg hp, if_neg hv]
          have hx := ih (i + 1)
            (sendCore t template options delayConfig c rest.isEmpty i cf k).cf
            (sendCore t template options delayConfig c rest.isEmpty i cf k).k
          exact consOut_inv c _ _ _ rest (sendCore_contact ..)
            hx.1 hx.2.1 hx.2.2.1 hx.2.2.2

theorem lookupKey_insert_self (d : List Char) (j : Nat) :
    ∀ m, lookupKey d (insertIdx d j m) = some ((lookupKey d m).getD [] ++ [j])
  | [] => by simp [insertIdx, lookupKey]
  | (k, is) :: rest => by
    by_cases hk : k = d
    · subst hk
      simp [insertIdx, lookupKey]
    · simp [insertIdx, lookupKey, hk, lookupKey_insert_self d j rest]

theorem lookupKey_insert_ne (d key : List Char) (j : Nat) (hne : d ≠ key) :
    ∀ m, lookupKey d (insertIdx key j m) = lookupKey d m
  | [] => by
    have hne' : ¬ key = d := fun h => hne h.symm
    simp [insertIdx, lookupKey, hne']
  | (k, is) :: rest => by
    by_cases hk : k = key
    · subst hk
      have hne' : ¬ k = d := fun h => hne h.symm
      simp [insertIdx, lookupKey, hne']
    · simp [insertIdx, lookupKey, hk, lookupKey_insert_ne d key j hne rest]

theorem combine_nil (o : Option (List Nat)) : combine o [] = o := by
  cases o <;> simp [combine]

theorem combine_push (o : Option (List Nat)) (j : Nat) (ys : List Nat) :
    combine (some (o.getD [] ++ [j])) ys = combine o (j :: ys) := by
  cases o <;> cases ys <;> simp [combine]

theorem collect_lookup (d : List Char) :
    ∀ (l : List Contact) (i : Nat) (acc : List (List Char × List Nat)),
      lookupKey d (collectPhones l i acc) = combine (lookupKey d acc) (idxsFrom d l i)
  | [], i, acc => by simp [collectPhones, idxsFrom, combine_nil]
  | c :: rest, i, acc => by
    by_cases hp : c.phone = []
    · simp [collectPhones, idxsFrom, hp, collect_lookup d rest (i + 1) acc]
    · by_cases hd : normalizePhone c.phone = d
      · rw [show collectPhones (c :: rest) i acc =
            collectPhones rest (i + 1) (insertIdx d i acc) by
              simp [collectPhones, hp, hd]]
        rw [collect_lookup d rest (i + 1) (insertIdx d i acc)]
        rw [lookupKey_insert_self, combine_push]
        simp [idxsFrom, hp, hd]
      · rw [show collectPhones (c :: rest) i acc =
            collectPhones rest (i + 1) (insertIdx (normalizePhone c.phone) i acc) by
              simp [collectPhones, hp]]
        rw [collect_lookup d rest (i + 1) (insertIdx (normalizePhone c.phone) i acc)]
        rw [lookupKey_insert_ne d _ i (fun h => hd h.symm)]
        simp [idxsFrom, hp, hd]

theorem insertIdx_keys (key : List Char) (j : Nat) :
    ∀ m, (insertIdx key j m).map Prod.fst =
      if key ∈ m.map Prod.fst then m.map Prod.fst else m.map Prod.fst ++ [key]
  | [] => by simp [insertIdx]
  | (k, is) :: rest => by
    by_cases hk : k = key
    · subst hk
      simp [insertIdx]
    · have hk' : key ≠ k := fun h => hk h.symm
      by_cases hmem : key ∈ rest.map Prod.fst <;>
        simp [insertIdx, hk, hk', hmem, insertIdx_keys key j rest]

theorem insertIdx_nodup_keys (key : List Char) (j : Nat) (m : List (List Char × List Nat))
    (h : (m.map Prod.fst).Nodup) : ((insertIdx key j m).map Prod.fst).Nodup := by
  rw [insertIdx_keys]
  by_cases hmem : key ∈ m.map Prod.fst
  · simpa [hmem] using h
  · simp only [hmem, if_false]
    simp [List.nodup_append, h, hmem]

theorem collect_nodup_keys :
    ∀ (l : List Contact) (i : Nat) (acc : List (List Char × List Nat)),
      (acc.map Prod.fst).Nodup → ((collectPhones l i acc).map Prod.fst).Nodup
  | [], i, acc => fun h => h
  | c :: rest, i, acc => fun h => by
    by_cases hp : c.phone = []
    · rw [show collectPhones (c :: rest) i acc = collectPhones rest (i + 1) acc by
        simp [collectPhones, hp]]
      exact collect_nodup_keys rest (i + 1) acc h
    · rw [show collectPhones (c :: rest) i acc =
          collectPhones rest (i + 1) (insertIdx (normalizePhone c.phone) i acc) by
            simp [collectPhones, hp]]
      exact collect_nodup_keys rest (i + 1) _ (insertIdx_nodup_keys _ i acc h)

theorem insertIdx_pred (P : List Char → Prop) (key : List Char) (j : Nat)
    (hkey : P key) (m : List (List Char × List Nat)) (hm : ∀ e ∈ m, P e.1) :
    ∀ e ∈ insertIdx key j m, P e.1 := by
  induction m with
  | nil =>
    intro e he
    simp only [insertIdx, List.mem_singleton] at he
    subst he
    exact hkey
  | cons kv rest ih =>
    obtain ⟨k, is⟩ := kv
    intro e he
    by_cases hk : k = key
    · simp only [insertIdx, if_pos hk] at he
      rcases List.mem_cons.1 he with h | h
      · subst h
        exact hm (k, is) (List.mem_cons_self _ _)
      · exact hm e (List.mem_cons_of_mem _ h)
    · simp only [insertIdx, if_neg hk] at he
      rcases List.mem_cons.1 he with h | h
      · subst h
        exact hm (k, is) (List.mem_cons_self _ _)
      · exact ih (fun x hx => hm x (List.mem_cons_of_mem _ hx)) e h

theorem allDigit_normalize (s : List Char) : allDigit (normalizePhone s) = true := by
  simp only [allDigit, normalizePhone, List.all_eq_true]
  intro c hc
  exact (List.mem_filter.1 hc).2

theorem collect_digit :
    ∀ (l : List Contact) (i : Nat) (acc : List (List Char × List Nat)),
      (∀ e ∈ acc, allDigit e.1 = true) →
      ∀ e ∈ collectPhones l i acc, allDigit e.1 = true
  | [], i, acc => fun h => h
  | c :: rest, i, acc => fun h => by
    by_cases hp : c.phone = []
    · rw [show collectPhones (c :: rest) i acc = collectPhones rest (i + 1) acc by
        simp [collectPhones, hp]]
      exact collect_digit rest (i + 1) acc h
    · rw [show collectPhones (c :: rest) i acc =
          collectPhones rest (i + 1) (insertIdx (normalizePhone c.phone) i acc) by
            simp [collectPhones, hp]]
      exact collect_digit rest (i + 1) _
        (insertIdx_pred (fun x => allDigit x = true) _ i (allDigit_normalize c.phone) acc h)

theorem digit_append_inj :
    ∀ (a : List Char) (b : List Char) (u v : List Char),
      allDigit a = true → allDigit b = true →
      a ++ '"' :: u = b ++ '"' :: v → a = b
  | [], [], _, _, _, _, _ => rfl
  | [], c :: bs, u, v, _, hb, h => by
    have hc : c = '"' := by
      have := congrArg List.head? h
      simpa using this.symm
    have : allDigit (c :: bs) = true := hb
    rw [hc] at this
    simp [allDigit] at this
  | c :: as, [], u, v, ha, _, h => by
    have hc : c = '"' := by
      have := congrArg List.head? h
      simpa using this
    rw [hc] at ha
    simp [allDigit] at ha
  | c :: as, c' :: bs, u, v, ha, hb, h => by
    have hh : c = c' := by
      have := congrArg List.head? h
      simpa using this
    have ht : as ++ '"' :: u = bs ++ '"' :: v := by
      have := congrArg List.tail h
      simpa using this
    have ha' : allDigit as = true := by
      simp [allDigit] at ha ⊢
      exact fun x hx => ha.2 x hx
    have hb' : allDigit bs = true := by
      simp [allDigit] at hb ⊢
      exact fun x hx => hb.2 x hx
    rw [hh, digit_append_inj as bs u v ha' hb' ht]

theorem dupMessage_split (a : List Char) (xs : List Nat) :
    dupMessage a xs =
      str "Duplicate phone number \"" ++
        (a ++ '"' :: (str " found at indices: " ++
          List.intercalate (str ", ") (xs.map natStr))) := by
  have hq : str "\" found at indices: " = '"' :: str " found at indices: " := rfl
  rw [dupMessage, hq]
  simp [List.append_assoc]

theorem dupError_inj (a b : List Char) (xs ys : List Nat)
    (ha : allDigit a = true) (hb : allDigit b = true)
    (h : dupError a xs = dupError b ys) : a = b := by
  have hmsg : dupMessage a xs = dupMessage b ys := congrArg ValidationError.message h
  rw [dupMessage_split, dupMessage_split] at hmsg
  have := List.append_cancel_left hmsg
  exact digit_append_inj a b _ _ ha hb this

theorem dup_count_zero (d : List Char) (is : List Nat) (hd : allDigit d = true) :
    ∀ m : List (List Char × List Nat), d ∉ m.map Prod.fst →
      (∀ e ∈ m, allDigit e.1 = true) →
      (m.filterMap mkDup).count (dupError d is) = 0
  | [], _, _ => rfl
  | (k, js) :: rest, hmem, hdig => by
    have hk : k ≠ d := by
      intro h
      exact hmem (by simp [h])
    have hrest := dup_count_zero d is hd rest
      (fun h => hmem (List.mem_cons_of_mem _ h))
      (fun e he => hdig e (List.mem_cons_of_mem _ he))
    by_cases h2 : 2 ≤ js.length
    · have hne : dupError k js ≠ dupError d is := fun h =>
        hk (dupError_inj k d js is (hdig (k, js) (List.mem_cons_self _ _)) hd h)
      simp [List.filterMap_cons, mkDup, h2, List.count_cons, hrest, hne]
    · simp [List.filterMap_cons, mkDup, h2, hrest]

theorem dup_count_one (d : List Char) (is : List Nat) (hd : allDigit d = true)
    (h2 : 2 ≤ is.length) :
    ∀ m : List (List Char × List Nat), (m.map Prod.fst).Nodup →
      lookupKey d m = some is →
      (∀ e ∈ m, allDigit e.1 = true) →
      (m.filterMap mkDup).count (dupError d is) = 1
  | [], _, hlk, _ => by simp [lookupKey] at hlk
  | (k, js) :: rest, hnd, hlk, hdig => by
    have hnd1 : k ∉ rest.map Prod.fst := by
      simp only [List.map_cons, List.nodup_cons] at hnd
      exact hnd.1
    have hnd2 : (rest.map Prod.fst).Nodup := by
      simp only [List.map_cons, List.nodup_cons] at hnd
      exact hnd.2
    by_cases hk : k = d
    · subst hk
      have hjs : js = is := by
        simpa [lookupKey] using hlk
      subst hjs
      have hz := dup_count_zero k js hd rest hnd1
        (fun e he => hdig e (List.mem_cons_of_mem _ he))
      simp [List.filterMap_cons, mkDup, h2, List.count_cons, hz]
    · have hlk' : lookupKey d rest = some is := by
        simpa [lookupKey, hk] using hlk
      have hrest := dup_count_one d is hd h2 rest hnd2 hlk'
        (fun e he => hdig e (List.mem_cons_of_mem _ he))
      by_cases hj2 : 2 ≤ js.length
      · have hne : dupError k js ≠ dupError d is := fun h =>
          hk (dupError_inj k d js is (hdig (k, js) (List.mem_cons_self _ _)) hd h)
        simp [List.filterMap_cons, mkDup, hj2, List.count_cons, hrest, hne]
      · simp [List.filterMap_cons, mkDup, hj2, hrest]

theorem lookupKey_mem (d : List Char) (is : List Nat) :
    ∀ m : List (List Char × List Nat), lookupKey d m = some is → (d, is) ∈ m
  | [], h => by simp [lookupKey] at h
  | (k, js) :: rest, h => by
    by_cases hk : k = d
    · subst hk
      have : js = is := by simpa [lookupKey] using h
      subst this
      exact List.mem_cons_self _ _
    · have h' : lookupKey d rest = some is := by simpa [lookupKey, hk] using h
      exact List.mem_cons_of_mem _ (lookupKey_mem d is rest h')

theorem combine_none_of_ne (ys : List Nat) (h : ys ≠ []) : combine none ys = some ys := by
  simp [combine, h]

theorem validateContact_field_long (c : Contact) (i : Nat) :
    ∀ e ∈ validateContact c i, 8 < e.field.length := by
  have l1 : (str "contacts[").length = 9 := rfl
  have l2 : (str "]").length = 1 := rfl
  have l3 : (str ".name").length = 5 := rfl
  have l4 : (str ".phone").length = 6 := rfl
  intro e he
  simp only [validateContact] at he
  rcases List.mem_append.1 he with h | h
  · split_ifs at h with hn
    · simp only [List.mem_singleton] at h
      subst h
      simp only [ctxPrefix, List.length_append, l1, l2, l3]
      omega
    · exact absurd h (List.not_mem_nil e)
  · split_ifs at h with h1 h2
    · simp only [List.mem_singleton] at h
      subst h
      simp only [ctxPrefix, List.length_append, l1, l2, l4]
      omega
    · simp only [List.mem_singleton] at h
      subst h
      simp only [ctxPrefix, List.length_append, l1, l2, l4]
      omega
    · exact absurd h (List.not_mem_nil e)

theorem count_dup_perContact_zero (contacts : List Contact) (d : List Char) (is : List Nat) :
    ((contacts.enum.map fun p => validateContact p.2 p.1).flatten).count (dupError d is) = 0 := by
  rw [List.count_eq_zero]
  intro hmem
  rw [List.mem_flatten] at hmem
  obtain ⟨l, hl, hel⟩ := hmem
  rw [List.mem_map] at hl
  obtain ⟨p, hp, rfl⟩ := hl
  have hlong := validateContact_field_long p.2 p.1 _ hel
  have hf : (dupError d is).field = str "contacts" := rfl
  have h8 : (str "contacts").length = 8 := rfl
  rw [hf] at hlong
  omega

theorem validateContacts_dup_count (contacts : List Contact) (d : List Char)
    (h2 : 2 ≤ (idxsFrom d contacts 0).length) :
    (validateContacts contacts).errors.count (dupError d (idxsFrom d contacts 0)) = 1 := by
  have hne : contacts ≠ [] := by
    intro h
    subst h
    simp [idxsFrom] at h2
  have hys : idxsFrom d contacts 0 ≠ [] := by
    intro h
    rw [h] at h2
    simp at h2
  have hlk : lookupKey d (collectPhones contacts 0 []) = some (idxsFrom d contacts 0) := by
    rw [collect_lookup]
    rw [show lookupKey d ([] : List (List Char × List Nat)) = none from rfl]
    exact combine_none_of_ne _ hys
  have hdig : ∀ e ∈ collectPhones contacts 0 [], allDigit e.1 = true :=
    collect_digit contacts 0 [] (by intro e he; simp at he)
  have hd : allDigit d = true := hdig _ (lookupKey_mem d _ _ hlk)
  have hnd : ((collectPhones contacts 0 []).map Prod.fst).Nodup :=
    collect_nodup_keys contacts 0 [] (by simp)
  have hcnt := dup_count_one d _ hd h2 (collectPhones contacts 0 []) hnd hlk hdig
  simp only [validateContacts, if_neg hne]
  rw [List.count_append, count_dup_perContact_zero, hcnt]

theorem validateContacts_mem_per (contacts : List Contact) (i : Nat) (c : Contact)
    (hc : contacts[i]? = some c) :
    ∀ e ∈ validateContact c i, e ∈ (validateContacts contacts).errors := by
  intro e he
  have hne : contacts ≠ [] := by
    intro h
    subst h
    simp at hc
  simp only [validateContacts, if_neg hne]
  apply List.mem_append_left
  rw [List.mem_flatten]
  refine ⟨validateContact c i, ?_, he⟩
  rw [List.mem_map]
  exact ⟨(i, c), List.mk_mem_enum_iff_getElem?.2 hc, rfl⟩

theorem startsWith_trans_append (p a b : List Char) (h : startsWith p a = true) :
    startsWith p (a ++ b) = true := by
  obtain ⟨r, rfl⟩ := (startsWith_iff p a).1 h
  rw [List.append_assoc]
  exact startsWith_append_self p (r ++ b)

theorem isUnknownPh_unknownPhError (w : List Char) :
    isUnknownPh (unknownPhError w) = true := by
  have hsplit : str "Unknown placeholder \"\x7b" =
      str "Unknown placeholder" ++ str " \"\x7b" := by decide
  have hpre : startsWith (str "Unknown placeholder") (str "Unknown placeholder \"\x7b") = true := by
    decide
  show startsWith (str "Unknown placeholder") (unknownPhMessage w) = true
  rw [unknownPhMessage, List.append_assoc]
  exact startsWith_trans_append _ _ _ hpre

theorem filterMap_if_mem (l : List (List Char)) :
    l.filterMap (fun w => if w ∈ validPlaceholders then none else some (unknownPhError w)) =
      (l.filter (fun w => decide (w ∉ validPlaceholders))).map unknownPhError := by
  induction l with
  | nil => rfl
  | cons w rest ih =>
    by_cases hw : w ∈ validPlaceholders <;>
      simp [List.filterMap_cons, List.filter_cons, hw, ih]

theorem template_errors_split (template : List Char) (h : trimJs template ≠ []) :
    (validateMessageTemplate template).errors =
      (if 10000 < (trimJs template).length then
        [(⟨str "messageTemplate",
          str "Message template exceeds maximum length of 10,000 characters"⟩ :
          ValidationError)]
      else []) ++
      ((scanPlaceholders template).filter
        (fun w => decide (w ∉ validPlaceholders))).map unknownPhError := by
  simp only [validateMessageTemplate, if_neg h]
  rw [filterMap_if_mem]

theorem template_filter_unknown (template : List Char) (h : trimJs template ≠ []) :
    (validateMessageTemplate template).errors.filter isUnknownPh =
      ((scanPlaceholders template).filter
        (fun w => decide (w ∉ validPlaceholders))).map unknownPhError := by
  rw [template_errors_split template h, List.filter_append]
  have hlen : ((if 10000 < (trimJs template).length then
      [(⟨str "messageTemplate",
        str "Message template exceeds maximum length of 10,000 characters"⟩ :
        ValidationError)]
      else []) : List ValidationError).filter isUnknownPh = [] := by
    split_ifs
    · simp [List.filter_cons, isUnknownPh]
      decide
    · rfl
  rw [hlen, List.nil_append]
  apply List.filter_eq_self.2
  intro e he
  rw [List.mem_map] at he
  obtain ⟨w, hw, rfl⟩ := he
  exact isUnknownPh_unknownPhError w

theorem template_accept (template : List Char) (h : trimJs template ≠ [])
    (hl : (trimJs template).length ≤ 10000)
    (hw : ∀ w ∈ scanPlaceholders template, w ∈ validPlaceholders) :
    (validateMessageTemplate template).valid = true := by
  have hlen : ¬ 10000 < (trimJs template).length := not_lt.2 hl
  have hfil : ((scanPlaceholders template).filter
      (fun w => decide (w ∉ validPlaceholders))) = [] := by
    rw [List.filter_eq_nil_iff]
    intro w hwmem
    simp [hw w hwmem]
  have := template_errors_split template h
  simp only [validateMessageTemplate, if_neg h] at this ⊢
  rw [filterMap_if_mem, hfil, if_neg hlen]
  rfl

/-- The loop only consults the registration oracle at indices at or beyond
the current one. -/
theorem sendLoop_isReg_ext (t t' : Transport) (template : List Char)
    (options : BulkSendOptions) (delayConfig : DelayConfig)
    (hsend : t.send = t'.send) (hrand : t.rand = t'.rand) :
    ∀ (contacts : List Contact) (i cf k : Nat),
      (∀ j, i ≤ j → t.isReg j = t'.isReg j) →
      sendLoop t template options delayConfig contacts i cf k =
        sendLoop t' template options delayConfig contacts i cf k := by
  have hcore : ∀ c L i cf k, sendCore t template options delayConfig c L i cf k =
      sendCore t' template options delayConfig c L i cf k := by
    intro c L i cf k
    simp [sendCore, hsend, hrand]
  intro contacts
  induction contacts with
  | nil => intro i cf k _; rfl
  | cons c rest ih =>
    intro i cf k hreg
    have hregi : t.isReg i = t'.isReg i := hreg i (le_refl i)
    have hnext : ∀ j, i + 1 ≤ j → t.isReg j = t'.isReg j := fun j hj =>
      hreg j (le_trans (Nat.le_succ i) hj)
    simp only [sendLoop, ← hregi, hcore, ih rest.length]
    by_cases h5 : MAX_CONSECUTIVE_FAILURES ≤ cf
    · simp [h5]
    · simp only [if_neg h5]
      by_cases hp : c.phone = []
      · simp [hp, ih _ _ _ hnext]
      · simp only [if_neg hp]
        by_cases hv : options.validateNumbers
        · simp only [hv, if_pos]
          rcases t.isReg i with e | b
          · simp [ih _ _ _ hnext]
          · cases b <;> simp [ih _ _ _ hnext]
        · simp only [hv]
          simp [ih _ _ _ hnext]

/-- C1: for every batch that passes validation, when the dispatch loop
reaches a recipient with `consecutiveFailures >= 5` it marks that recipient
and all remaining ones skipped with reason "Aborted due to consecutive
failures" and stops: no further transport call or wait (the loop output has
an empty event trace).  In particular a 10-recipient batch whose transport
fails every send yields 5 failed then 5 such skipped outcomes, `total = 10`,
`sent = 0`, and the trace shows exactly 5 sends, no registration check, and
nothing after the abort. -/
theorem C1_abort_on_consecutive_failures :
    (∀ (t : Transport) (template : List Char) (options : BulkSendOptions)
        (delayConfig : DelayConfig) (contacts : List Contact) (i cf k : Nat),
        MAX_CONSECUTIVE_FAILURES ≤ cf →
        sendLoop t template options delayConfig contacts i cf k =
          ⟨contacts.map abortSkip, 0, 0, contacts.length, []⟩) ∧
    (sendBulkMessages tFail cs10 (str "hi") {} cfg0).1.total = 10 ∧
    (sendBulkMessages tFail cs10 (str "hi") {} cfg0).1.sent = 0 ∧
    (sendBulkMessages tFail cs10 (str "hi") {} cfg0).1.failed = 5 ∧
    (sendBulkMessages tFail cs10 (str "hi") {} cfg0).1.skipped = 5 ∧
    (sendBulkMessages tFail cs10 (str "hi") {} cfg0).1.details.map
        (fun d => (d.status, d.reason)) =
      List.replicate 5 (Status.failed, (none : Option (List Char))) ++
        List.replicate 5
          (Status.skipped, some (str "Aborted due to consecutive failures")) ∧
    ((sendBulkMessages tFail cs10 (str "hi") {} cfg0).2.countP fun e =>
      match e with
      | .sendMessage _ _ => true
      | _ => false) = 5 ∧
    ((sendBulkMessages tFail cs10 (str "hi") {} cfg0).2.countP fun e =>
      match e with
      | .isRegistered _ => true
      | _ => false) = 0 := by
  refine ⟨?_, by decide, by decide, by decide, by decide, by decide, by decide, by decide⟩
  intro t template options delayConfig contacts i cf k h5
  cases contacts with
  | nil => rfl
  | cons c rest => simp [sendLoop, h5]

/-- C1 witness: the abort equation applied at a concrete state with
`consecutiveFailures = 5`. -/
theorem C1_abort_on_consecutive_failures_witness :
    MAX_CONSECUTIVE_FAILURES ≤ 5 ∧
      sendLoop tFail (str "hi") {} cfg0 [mkC 0] 0 5 0 =
        ⟨[mkC 0].map abortSkip, 0, 0, [mkC 0].length, []⟩ :=
  ⟨by decide,
    C1_abort_on_consecutive_failures.1 tFail (str "hi") {} cfg0 [mkC 0] 0 5 0 (by decide)⟩

/-- C2: if contact, template or delay-config validation fails (checked in
that order), `sendBulkMessages` returns immediately with every recipient
skipped under the corresponding reason string, `sent = failed = 0`,
`skipped` = number of recipients, and an empty event trace (no transport
call, no wait). -/
theorem C2_validation_short_circuit (t : Transport) (contacts : List Contact)
    (template : List Char) (options : BulkSendOptions) (delayConfig : DelayConfig) :
    ((validateContacts contacts).valid = false →
      sendBulkMessages t contacts template options delayConfig =
        (⟨contacts.length, 0, 0, contacts.length,
          contacts.map (validationSkip (str "Validation failed before sending"))⟩, [])) ∧
    ((validateContacts contacts).valid = true →
      (validateMessageTemplate template).valid = false →
      sendBulkMessages t contacts template options delayConfig =
        (⟨contacts.length, 0, 0, contacts.length,
          contacts.map (validationSkip (str "Invalid message template"))⟩, [])) ∧
    ((validateContacts contacts).valid = true →
      (validateMessageTemplate template).valid = true →
      (validateDelayConfig delayConfig).valid = false →
      sendBulkMessages t contacts template options delayConfig =
        (⟨contacts.length, 0, 0, contacts.length,
          contacts.map (validationSkip (str "Invalid delay configuration"))⟩, [])) := by
  refine ⟨fun h1 => ?_, fun h1 h2 => ?_, fun h1 h2 h3 => ?_⟩ <;>
    simp [sendBulkMessages, *]

/-- C2 witness: the three short-circuits at concrete inputs — duplicate
contacts, an unknown placeholder, and `min > max` in the delay config. -/
theorem C2_validation_short_circuit_witness :
    ((validateContacts csDup).valid = false ∧
      sendBulkMessages tOk csDup (str "hi") {} cfg0 =
        (⟨csDup.length, 0, 0, csDup.length,
          csDup.map (validationSkip (str "Validation failed before sending"))⟩, [])) ∧
    ((validateContacts [mkC 0]).valid = true ∧
      (validateMessageTemplate (str "Hello {organization}")).valid = false ∧
      sendBulkMessages tOk [mkC 0] (str "Hello {organization}") {} cfg0 =
        (⟨[mkC 0].length, 0, 0, [mkC 0].length,
          [mkC 0].map (validationSkip (str "Invalid message template"))⟩, [])) ∧
    ((validateDelayConfig cfgBad).valid = false ∧
      sendBulkMessages tOk [mkC 0] (str "hi") {} cfgBad =
        (⟨[mkC 0].length, 0, 0, [mkC 0].length,
          [mkC 0].map (validationSkip (str "Invalid delay configuration"))⟩, [])) :=
  ⟨⟨by decide,
      (C2_validation_short_circuit tOk csDup (str "hi") {} cfg0).1 (by decide)⟩,
    ⟨by decide, by decide,
      (C2_validation_short_circuit tOk [mkC 0] (str "Hello {organization}") {} cfg0).2.1
        (by decide) (by decide)⟩,
    ⟨by decide,
      (C2_validation_short_circuit tOk [mkC 0] (str "hi") {} cfgBad).2.2
        (by decide) (by decide) (by decide)⟩⟩

/-- C3 counterexample: four refutations of the claim's unrestricted
substitution reading.  (a) `firstName` is claimed to derive from splitting
`name` on whitespace, but the code splits on the space character only: for
a tab-separated name the whitespace tokenisation gives "Dana" while the
code substitutes the whole string.  (b) Substitution cascades through field
values: a `name` equal to a later token is itself substituted, so the
output is not the name field.  (c) The replacement string is interpreted
per ECMAScript GetSubstitution: a `name` of `"$&"` reinserts the matched
token.  (d) A token occurrence formed by an earlier substitution is also
substituted: `"{f{name}}"` with `name = "irstName"` ends as `"irstName"`,
not as the template with its one `\x7bname\x7d` occurrence replaced. -/
theorem C3_personalize_counterexample :
    (personalizeMessage (str "{firstName}")
        { name := str "Dana\tLevi", phone := str "972501234567" } = str "Dana\tLevi" ∧
      (wsTokens (str "Dana\tLevi")).headD [] = str "Dana" ∧
      str "Dana\tLevi" ≠ str "Dana") ∧
    (personalizeMessage (str "{name}")
        { name := str "{customField}", phone := str "972501234567",
          customField := some (str "Z") } = str "Z" ∧
      str "Z" ≠ str "{customField}") ∧
    (personalizeMessage (str "{name}")
        { name := str "$&", phone := str "972501234567" } = str "{name}" ∧
      str "{name}" ≠ str "$&") ∧
    (personalizeMessage (str "\x7bf{name}\x7d")
        { name := str "irstName", phone := str "972501234567" } = str "irstName" ∧
      str "irstName" ≠ str "\x7bf" ++ str "irstName" ++ str "\x7d") :=
  ⟨⟨by decide, by decide, by decide⟩, ⟨by decide, by decide⟩,
    ⟨by decide, by decide⟩, ⟨by decide, by decide⟩⟩

/-- C3 (amended): `personalizeMessage` applies the five replacements
sequentially in the order name, firstName, lastName, company (the spec's
`organization`), customField, interpreting `$`-patterns in replacement
values per GetSubstitution; on every template decomposed into brace-free
literals and placeholder tokens, and for every recipient whose derived
field values contain neither `'{'` nor `'$'`, this equals simultaneous
substitution: every token occurrence is replaced by the corresponding
field — the empty string (never the literal token) when absent, and
`firstName`/`lastName` derived by splitting `name` on the space
character.  Outside those restrictions substitution can cascade or
reinsert the match, as the counterexample shows.  Includes the spec's
example and the empty-string behaviour. -/
theorem C3_personalize_substitution :
    (∀ (segs : List Seg) (contact : Contact),
        (∀ sg ∈ segs, SegOk sg) → (∀ p : Ph, '{' ∉ phVal contact p) →
        (∀ p : Ph, '$' ∉ phVal contact p) →
        personalizeMessage (render segs) contact = substSpec contact segs) ∧
    personalizeMessage (str "Hi {firstName} from {company}") danaW =
      str "Hi Dana from Acme" ∧
    personalizeMessage (str "{name}-{firstName}-{lastName}-{company}-{customField}")
        { name := [], phone := str "972501234567" } = str "----" := by
  refine ⟨?_, by decide, by decide⟩
  intro segs contact hok hb hd
  rw [personalize_eq_chain]
  exact chain_render contact segs hok hb hd

/-- C3 witness: the substitution theorem applied to the segments of
`"Hi {firstName} from {company}"` and the example recipient. -/
theorem C3_personalize_substitution_witness :
    personalizeMessage (render segsW) danaW = substSpec danaW segsW :=
  C3_personalize_substitution.1 segsW danaW (by decide)
    (by intro p; cases p <;> decide) (by intro p; cases p <;> decide)

/-- C4 counterexample: the claim says every template longer than 10,000
characters is rejected, but the code measures the trimmed length: 10,000
characters plus a trailing space (raw length 10,001) is accepted. -/
theorem isJsSpace_a : isJsSpace 'a' = false := rfl

theorem isJsSpace_sp : isJsSpace ' ' = true := rfl

theorem dropWhile_replicate_a (n : Nat) :
    (List.replicate n 'a').dropWhile isJsSpace = List.replicate n 'a' := by
  cases n with
  | zero => rfl
  | succ m =>
    rw [List.replicate_succ, List.dropWhile_cons, isJsSpace_a,
      if_neg Bool.false_ne_true]

theorem trimJs_replicate_a (n : Nat) :
    trimJs (List.replicate n 'a') = List.replicate n 'a' := by
  rw [trimJs, dropWhile_replicate_a, List.reverse_replicate, dropWhile_replicate_a,
    List.reverse_replicate]

theorem scanGo_no_brace : ∀ s : List Char, '{' ∉ s → scanGo s 0 = []
  | [], _ => rfl
  | c :: rest, h => by
    have hc : ¬ c = '{' := fun hc => h (by simp [hc])
    have hrest : '{' ∉ rest := fun hr => h (List.mem_cons_of_mem _ hr)
    simp only [scanGo, if_neg hc]
    exact scanGo_no_brace rest hrest

theorem trimJs_tpl0 :
    trimJs (List.replicate 10000 'a' ++ [' ']) = List.replicate 10000 'a' := by
  have h1 : (List.replicate 10000 'a' ++ [' ']).dropWhile isJsSpace =
      List.replicate 10000 'a' ++ [' '] := by
    rw [show List.replicate 10000 'a' = 'a' :: List.replicate 9999 'a' from rfl]
    rw [List.cons_append, List.dropWhile_cons, isJsSpace_a, if_neg Bool.false_ne_true]
  rw [trimJs, h1, List.reverse_append]
  simp only [List.reverse_cons, List.reverse_nil, List.nil_append, List.singleton_append]
  rw [List.dropWhile_cons, isJsSpace_sp, if_pos rfl]
  rw [List.reverse_replicate, dropWhile_replicate_a, List.reverse_replicate]

/-- C4 counterexample: the claim says every template longer than 10,000
characters is rejected, but the code measures the trimmed length: 10,000
characters plus a trailing space (raw length 10,001) is accepted. -/
theorem C4_template_counterexample :
    10000 < (List.replicate 10000 'a' ++ [' ']).length ∧
    (validateMessageTemplate (List.replicate 10000 'a' ++ [' '])).valid = true := by
  constructor
  · simp only [List.length_append, List.length_replicate, List.length_cons,
      List.length_nil]
    omega
  · apply template_accept
    · rw [trimJs_tpl0]
      intro h
      have hl := congrArg List.length h
      simp only [List.length_replicate, List.length_nil] at hl
      exact absurd hl (by decide)
    · rw [trimJs_tpl0, List.length_replicate]
    · rw [show scanPlaceholders (List.replicate 10000 'a' ++ [' ']) = [] from
        scanGo_no_brace _ (by
          intro hmem
          rcases List.mem_append.1 hmem with h | h
          · exact absurd (List.eq_of_mem_replicate h) (by decide)
          · rw [List.mem_singleton] at h
            exact absurd h (by decide))]
      intro w hw
      exact absurd hw (List.not_mem_nil w)

/-- C4 (amended): `validateMessageTemplate` rejects blank templates and
templates whose length after trimming whitespace exceeds 10,000; for any
non-blank template its unknown-placeholder errors are exactly one error per
scanned `\x7bword\x7d` token outside the fixed vocabulary, in scan order
(collected, not short-circuiting); and a non-blank template within the
trimmed length bound whose tokens all lie in the vocabulary is accepted. -/
theorem C4_template_validation :
    (∀ template, trimJs template = [] → (validateMessageTemplate template).valid = false) ∧
    (∀ template, trimJs template ≠ [] → 10000 < (trimJs template).length →
      (validateMessageTemplate template).valid = false) ∧
    (∀ template, trimJs template ≠ [] →
      (validateMessageTemplate template).errors.filter isUnknownPh =
        ((scanPlaceholders template).filter
          (fun w => decide (w ∉ validPlaceholders))).map unknownPhError) ∧
    (∀ template, trimJs template ≠ [] → (trimJs template).length ≤ 10000 →
      (∀ w ∈ scanPlaceholders template, w ∈ validPlaceholders) →
      (validateMessageTemplate template).valid = true) := by
  refine ⟨?_, ?_, template_filter_unknown, template_accept⟩
  · intro template h
    simp [validateMessageTemplate, h]
  · intro template h hl
    simp [validateMessageTemplate, h, hl]

/-- C4 witness: the four conjuncts at concrete templates — a blank one, an
overlong one, one with an unknown token, and an accepted one. -/
theorem C4_template_validation_witness :
    (validateMessageTemplate (str "   ")).valid = false ∧
    (validateMessageTemplate (List.replicate 10001 'a')).valid = false ∧
    (validateMessageTemplate (str "{foo} {name}")).errors.filter isUnknownPh =
      ((scanPlaceholders (str "{foo} {name}")).filter
        (fun w => decide (w ∉ validPlaceholders))).map unknownPhError ∧
    (validateMessageTemplate (str "Hi {name}")).valid = true :=
  ⟨C4_template_validation.1 (str "   ") (by decide),
    C4_template_validation.2.1 (List.replicate 10001 'a')
      (by
        rw [trimJs_replicate_a]
        intro h
        have hl := congrArg List.length h
        simp only [List.length_replicate, List.length_nil] at hl
        exact absurd hl (by decide))
      (by
        rw [trimJs_replicate_a, List.length_replicate]
        omega),
    C4_template_validation.2.2.1 (str "{foo} {name}") (by decide),
    C4_template_validation.2.2.2 (str "Hi {name}") (by decide) (by decide) (by decide)⟩

/-- C5 counterexample: the claim demands one duplicate-group error for every
group of recipients whose addresses agree after stripping non-digits, but
the code's duplicate scan skips falsy (empty) phones: `"+"` and `""` both
strip to `""`, yet no duplicate error is reported. -/
theorem C5_duplicates_counterexample :
    normalizePhone (str "+") = normalizePhone [] ∧
    ((validateContacts
        [{ name := str "A", phone := str "+" },
         { name := str "B", phone := [] }]).errors.countP isDupErr) = 0 :=
  ⟨by decide, by decide⟩

/-- C5 (amended): `validateContacts` fails on the empty list; it aggregates
every per-recipient error; and for each normalized phone `d` with two or
more recipients having a non-empty address stripping to `d`, the error list
contains exactly one duplicate-group error carrying `d` and the full index
list.  The spec's example — two spellings of one number — yields exactly the
one duplicate error naming indices 0 and 1. -/
theorem C5_recipient_validation :
    (validateContacts []).valid = false ∧
    (∀ (contacts : List Contact) (i : Nat) (c : Contact), contacts[i]? = some c →
      ∀ e ∈ validateContact c i, e ∈ (validateContacts contacts).errors) ∧
    (∀ (contacts : List Contact) (d : List Char),
      2 ≤ (idxsFrom d contacts 0).length →
      (validateContacts contacts).errors.count (dupError d (idxsFrom d contacts 0)) = 1) ∧
    (validateContacts csEx).errors = [dupError (str "972501234567") [0, 1]] := by
  refine ⟨by decide, ?_, ?_, by decide⟩
  · intro contacts i c hc
    exact validateContacts_mem_per contacts i c hc
  · intro contacts d h2
    exact validateContacts_dup_count contacts d h2

/-- C5 witness: the aggregation conjunct at a contact with a missing name,
and the duplicate-count conjunct at the spec's example. -/
theorem C5_recipient_validation_witness :
    (⟨str "contacts[0].name", str "Name is required"⟩ : ValidationError) ∈
      (validateContacts [{ name := str "", phone := str "972501234567" }]).errors ∧
    (validateContacts csEx).errors.count
      (dupError (str "972501234567") (idxsFrom (str "972501234567") csEx 0)) = 1 :=
  ⟨C5_recipient_validation.2.1 [{ name := str "", phone := str "972501234567" }] 0
      { name := str "", phone := str "972501234567" } (by decide)
      ⟨str "contacts[0].name", str "Name is required"⟩ (by decide),
    C5_recipient_validation.2.2.1 csEx (str "972501234567") (by decide)⟩

/-- C6: for all integers `0 ≤ min ≤ max` and every random-source value
`r ∈ [0,1)`, `getRandomDelay min max r` lies in the inclusive interval
`[min, max]`; with `min = max` it returns exactly that value. -/
theorem C6_random_delay_range (min max : Int) (r : ℚ)
    (h0min : 0 ≤ min) (hmm : min ≤ max) (hr0 : 0 ≤ r) (hr1 : r < 1) :
    min ≤ getRandomDelay min max r ∧ getRandomDelay min max r ≤ max ∧
      (min = max → getRandomDelay min max r = min) := by
  obtain ⟨hlo, hhi⟩ := getRandomDelay_bounds min max r hmm hr0 hr1
  refine ⟨hlo, hhi, fun h => le_antisymm ?_ hlo⟩
  calc getRandomDelay min max r ≤ max := hhi
    _ = min := h.symm

/-- C6 witness: the bounds at `min = 3`, `max = 7`, `r = 0`, and the exact
value at `min = max = 4`. -/
theorem C6_random_delay_range_witness :
    (3 ≤ getRandomDelay 3 7 0 ∧ getRandomDelay 3 7 0 ≤ 7 ∧
      ((3 : Int) = 7 → getRandomDelay 3 7 0 = 3)) ∧
    (4 ≤ getRandomDelay 4 4 0 ∧ getRandomDelay 4 4 0 ≤ 4 ∧
      ((4 : Int) = 4 → getRandomDelay 4 4 0 = 4)) :=
  ⟨C6_random_delay_range 3 7 0 (by decide) (by decide) (le_refl 0) zero_lt_one,
    C6_random_delay_range 4 4 0 (by decide) (by decide) (le_refl 0) zero_lt_one⟩

/-- C7: after a failed send that is not the last recipient, the step emits
exactly the send event and one wait whose duration is a freshly drawn base
delay (`rand k`, the next unconsumed draw) multiplied by
`min(consecutiveFailures, 3)` where the count includes the just-failed send;
no personalized component is added (the statement holds for every
`options`), the counter is incremented, exactly one draw is consumed, and
the multiplier is between 1 and 3. -/
theorem C7_failure_backoff (t : Transport) (template : List Char)
    (options : BulkSendOptions) (delayConfig : DelayConfig) (contact : Contact)
    (i cf k : Nat) (m : List Char) (hsend : t.send i = .error m) :
    (sendCore t template options delayConfig contact false i cf k).events =
      [Ev.sendMessage (chatId contact) (personalizeMessage template contact),
       Ev.wait (getRandomDelay delayConfig.min delayConfig.max (t.rand k) *
         ((min (cf + 1) 3 : Nat) : Int))] ∧
    (sendCore t template options delayConfig contact false i cf k).cf = cf + 1 ∧
    (sendCore t template options delayConfig contact false i cf k).k = k + 1 ∧
    1 ≤ min (cf + 1) 3 ∧ min (cf + 1) 3 ≤ 3 := by
  refine ⟨?_, ?_, ?_, le_min (by omega) (by omega), min_le_right _ _⟩ <;>
    simp [sendCore, hsend]

/-- C7 witness: the backoff step at a concrete failing transport. -/
theorem C7_failure_backoff_witness :
    (sendCore tFail (str "hi") {} cfg0 (mkC 0) false 0 0 0).events =
      [Ev.sendMessage (chatId (mkC 0)) (personalizeMessage (str "hi") (mkC 0)),
       Ev.wait (getRandomDelay cfg0.min cfg0.max (tFail.rand 0) *
         ((min (0 + 1) 3 : Nat) : Int))] ∧
    (sendCore tFail (str "hi") {} cfg0 (mkC 0) false 0 0 0).cf = 0 + 1 ∧
    (sendCore tFail (str "hi") {} cfg0 (mkC 0) false 0 0 0).k = 0 + 1 ∧
    1 ≤ min (0 + 1) 3 ∧ min (0 + 1) 3 ≤ 3 :=
  C7_failure_backoff tFail (str "hi") {} cfg0 (mkC 0) 0 0 0 (str "boom") rfl

/-- C8: a recipient with no phone is skipped with reason "No phone number"
and the loop continues with the same failure counter, the same random
counter, and no emitted event (in particular no wait); likewise a
registration-check skip adds only the registration-check event — pre-send
skips never trigger the delay policy. -/
theorem C8_presend_skips_no_wait (t : Transport) (template : List Char)
    (options : BulkSendOptions) (delayConfig : DelayConfig) (c : Contact)
    (rest : List Contact) (i cf k : Nat) (hcf : cf < MAX_CONSECUTIVE_FAILURES) :
    (c.phone = [] →
      sendLoop t template options delayConfig (c :: rest) i cf k =
        consOut ⟨c, .skipped, some (str "No phone number"), none⟩ []
          (sendLoop t template options delayConfig rest (i + 1) cf k)) ∧
    (c.phone ≠ [] → options.validateNumbers = true → t.isReg i = .ok false →
      sendLoop t template options delayConfig (c :: rest) i cf k =
        consOut ⟨c, .skipped, some (str "Not registered"), none⟩
          [Ev.isRegistered (chatId c)]
          (sendLoop t template options delayConfig rest (i + 1) cf k)) := by
  have h5 : ¬ MAX_CONSECUTIVE_FAILURES ≤ cf := not_le.2 hcf
  constructor
  · intro hp
    simp [sendLoop, h5, hp]
  · intro hp hv hreg
    simp [sendLoop, h5, hp, hv, hreg]

/-- C8 witness: both pre-send skips at concrete transports. -/
theorem C8_presend_skips_no_wait_witness :
    sendLoop tOk (str "hi") {} cfg0 [{ name := str "A", phone := [] }] 0 0 0 =
      consOut ⟨{ name := str "A", phone := [] }, .skipped,
          some (str "No phone number"), none⟩ []
        (sendLoop tOk (str "hi") {} cfg0 [] 1 0 0) ∧
    sendLoop tNotReg (str "hi") { validateNumbers := true } cfg0 [mkC 0] 0 0 0 =
      consOut ⟨mkC 0, .skipped, some (str "Not registered"), none⟩
        [Ev.isRegistered (chatId (mkC 0))]
        (sendLoop tNotReg (str "hi") { validateNumbers := true } cfg0 [] 1 0 0) :=
  ⟨(C8_presend_skips_no_wait tOk (str "hi") {} cfg0
      { name := str "A", phone := [] } [] 0 0 0 (by decide)).1 rfl,
    (C8_presend_skips_no_wait tNotReg (str "hi") { validateNumbers := true } cfg0
      (mkC 0) [] 0 0 0 (by decide)).2 (by decide) rfl rfl⟩

/-- C9: with the registration check enabled, a recipient whose check returns
false is skipped with reason "Not registered" and never sent to (only the
registration-check event is emitted for them); if the check throws, the
whole loop behaves exactly as if the check had returned true — the error is
swallowed, the recipient is not marked failed, nothing propagates, and the
batch is not aborted. -/
theorem C9_registration_advisory (t : Transport) (template : List Char)
    (options : BulkSendOptions) (delayConfig : DelayConfig) (c : Contact)
    (rest : List Contact) (i cf k : Nat) :
    (cf < MAX_CONSECUTIVE_FAILURES → c.phone ≠ [] → options.validateNumbers = true →
      t.isReg i = .ok false →
      sendLoop t template options delayConfig (c :: rest) i cf k =
        consOut ⟨c, .skipped, some (str "Not registered"), none⟩
          [Ev.isRegistered (chatId c)]
          (sendLoop t template options delayConfig rest (i + 1) cf k)) ∧
    (∀ e : List Char, t.isReg i = .error e →
      sendLoop t template options delayConfig (c :: rest) i cf k =
        sendLoop (setRegOk t i) template options delayConfig (c :: rest) i cf k) := by
  constructor
  · intro hcf hp hv hreg
    simp [sendLoop, not_le.2 hcf, hp, hv, hreg]
  · intro e hreg
    have hsr : (setRegOk t i).isReg i = .ok true := by
      simp [setRegOk]
    have hnext : ∀ j, i + 1 ≤ j → t.isReg j = (setRegOk t i).isReg j := by
      intro j hj
      have hne : j ≠ i := by omega
      simp [setRegOk, hne]
    have hcoreq : ∀ (L : Bool) (cf' k' : Nat),
        sendCore t template options delayConfig c L i cf' k' =
          sendCore (setRegOk t i) template options delayConfig c L i cf' k' := by
      intro L cf' k'
      simp [sendCore, setRegOk]
    have hrec : ∀ cf' k', sendLoop t template options delayConfig rest (i + 1) cf' k' =
        sendLoop (setRegOk t i) template options delayConfig rest (i + 1) cf' k' :=
      fun cf' k' => sendLoop_isReg_ext t (setRegOk t i) template options delayConfig
        rfl rfl rest (i + 1) cf' k' hnext
    by_cases h5 : MAX_CONSECUTIVE_FAILURES ≤ cf
    · simp [sendLoop, h5]
    · by_cases hp : c.phone = []
      · simp [sendLoop, h5, hp, hrec]
      · by_cases hv : options.validateNumbers
        · simp only [sendLoop, if_neg h5, if_neg hp, hv, if_pos, hreg, hsr]
          rw [hcoreq, hrec]
        · simp only [sendLoop, if_neg h5, if_neg hp, hv, if_neg, Bool.false_eq_true,
            not_false_eq_true]
          rw [hcoreq, hrec]

/-- C9 witness: the not-registered skip at a concrete transport, and the
thrown-check equivalence at a transport whose check always throws. -/
theorem C9_registration_advisory_witness :
    sendLoop tNotReg (str "hi") { validateNumbers := true } cfg0 [mkC 1] 0 0 0 =
      consOut ⟨mkC 1, .skipped, some (str "Not registered"), none⟩
        [Ev.isRegistered (chatId (mkC 1))]
        (sendLoop tNotReg (str "hi") { validateNumbers := true } cfg0 [] 1 0 0) ∧
    sendLoop tRegThrows (str "hi") { validateNumbers := true } cfg0 [mkC 1] 0 0 0 =
      sendLoop (setRegOk tRegThrows 0) (str "hi") { validateNumbers := true } cfg0
        [mkC 1] 0 0 0 :=
  ⟨(C9_registration_advisory tNotReg (str "hi") { validateNumbers := true } cfg0
      (mkC 1) [] 0 0 0).1 (by decide) (by decide) rfl rfl,
    (C9_registration_advisory tRegThrows (str "hi") { validateNumbers := true } cfg0
      (mkC 1) [] 0 0 0).2 (str "network") rfl⟩

theorem map_validationSkip_contact (reason : List Char) (l : List Contact) :
    (l.map (validationSkip reason)).map (fun d => d.contact) = l := by
  induction l with
  | nil => rfl
  | cons c cs ih => simpa [validationSkip] using ih

theorem countP_validationSkip (reason : List Char) (l : List Contact) :
    (l.map (validationSkip reason)).countP (fun d => decide (d.status = .sent)) = 0 ∧
    (l.map (validationSkip reason)).countP (fun d => decide (d.status = .failed)) = 0 ∧
    (l.map (validationSkip reason)).countP (fun d => decide (d.status = .skipped)) =
      l.length := by
  induction l with
  | nil => exact ⟨rfl, rfl, rfl⟩
  | cons c cs ih => simp [List.countP_cons, validationSkip, ih.1, ih.2.1, ih.2.2]

/-- C10: on every return path of `sendBulkMessages` — the three validation
failures, a completed run, or an aborted run — the result satisfies
`total` = number of input contacts = number of details, the `k`-th detail
carries the `k`-th input contact, `sent + failed + skipped = total`, and
each of the three counters equals the number of details with that status. -/
theorem C10_result_invariants (t : Transport) (contacts : List Contact)
    (template : List Char) (options : BulkSendOptions) (delayConfig : DelayConfig) :
    (sendBulkMessages t contacts template options delayConfig).1.total =
        contacts.length ∧
    (sendBulkMessages t contacts template options delayConfig).1.details.length =
        contacts.length ∧
    (sendBulkMessages t contacts template options delayConfig).1.details.map
        (fun d => d.contact) = contacts ∧
    (sendBulkMessages t contacts template options delayConfig).1.sent +
        (sendBulkMessages t contacts template options delayConfig).1.failed +
        (sendBulkMessages t contacts template options delayConfig).1.skipped =
      (sendBulkMessages t contacts template options delayConfig).1.total ∧
    (sendBulkMessages t contacts template options delayConfig).1.sent =
      (sendBulkMessages t contacts template options delayConfig).1.details.countP
        (fun d => decide (d.status = .sent)) ∧
    (sendBulkMessages t contacts template options delayConfig).1.failed =
      (sendBulkMessages t contacts template options delayConfig).1.details.countP
        (fun d => decide (d.status = .failed)) ∧
    (sendBulkMessages t contacts template options delayConfig).1.skipped =
      (sendBulkMessages t contacts template options delayConfig).1.details.countP
        (fun d => decide (d.status = .skipped)) := by
  rw [sendBulkMessages]
  split_ifs with h1 h2 h3
  · refine ⟨rfl, ?_, map_validationSkip_contact _ _, by simp, ?_, ?_, ?_⟩
    · simp
    · exact (countP_validationSkip _ _).1.symm
    · exact (countP_validationSkip _ _).2.1.symm
    · simpa using (countP_validationSkip _ _).2.2.symm
  · refine ⟨rfl, ?_, map_validationSkip_contact _ _, by simp, ?_, ?_, ?_⟩
    · simp
    · exact (countP_validationSkip _ _).1.symm
    · exact (countP_validationSkip _ _).2.1.symm
    · simpa using (countP_validationSkip _ _).2.2.symm
  · refine ⟨rfl, ?_, map_validationSkip_contact _ _, by simp, ?_, ?_, ?_⟩
    · simp
    · exact (countP_validationSkip _ _).1.symm
    · exact (countP_validationSkip _ _).2.1.symm
    · simpa using (countP_validationSkip _ _).2.2.symm
  · obtain ⟨hmap, hsent, hfail, hskip⟩ :=
      sendLoop_inv t template options delayConfig contacts 0 0 0
    have hlen : (sendLoop t template options delayConfig contacts 0 0 0).details.length =
        contacts.length := by
      calc (sendLoop t template options delayConfig contacts 0 0 0).details.length
          = ((sendLoop t template options delayConfig contacts 0 0 0).details.map
              (fun d => d.contact)).length := (List.length_map _ _).symm
        _ = contacts.length := by rw [hmap]
    have hsum : (sendLoop t template options delayConfig contacts 0 0 0).sent +
        (sendLoop t template options delayConfig contacts 0 0 0).failed +
        (sendLoop t template options delayConfig contacts 0 0 0).skipped =
          contacts.length := by
      rw [hsent, hfail, hskip]
      calc (sendLoop t template options delayConfig contacts 0 0 0).details.countP
              (fun d => decide (d.status = .sent)) +
            (sendLoop t template options delayConfig contacts 0 0 0).details.countP
              (fun d => decide (d.status = .failed)) +
            (sendLoop t template options delayConfig contacts 0 0 0).details.countP
              (fun d => decide (d.status = .skipped))
          = (sendLoop t template options delayConfig contacts 0 0 0).details.length :=
            countP_status_partition _
        _ = contacts.length := hlen
    exact ⟨rfl, hlen, hmap, hsum, hsent, hfail, hskip⟩

end WA

